import Mathlib

/-!
Game Boy emulator: the address space (`memory.cpp`) and the pixel arithmetic
of the display (`display.cpp`).

A shallow embedding of `Memory` from `src/memory.cpp` and theorems about its
region-decoded `read` / `write`, the special zero-page registers, the OAM DMA
transfer, `reset` and the RAM-size report of `load_rom`; of the tile
addressing, palette decoding, scroll arithmetic and sprite tile loop of
`src/display.cpp`; and of the interrupt constants of `src/cpu.h`.

Conventions of the embedding.

* `Byte` is an unsigned 8-bit value and `Address` / `Byte_2` an unsigned 16-bit
  value; both are carried as `Nat`.  A conversion to `Address` at a call
  boundary is written `% 0x10000`, a conversion to `Byte` is written `% 0x100`.
* A `std::vector<Byte>` is a `List Nat`.  `v[i]` is defined only for an index
  inside the vector, so an indexed load is `vec_get` (an `Option`) and an
  indexed store is `vec_set` (an `Option`): `none` stands for an access past
  the end of the vector, for which the program defines no result.  On an empty
  vector such a load faults; behind a non-empty one it finds whatever the
  process holds there, which the embedding does not follow, so no claim
  below rests on `none` except for the empty cartridge vector.
* The regions created by the constructor keep their size for the lifetime of
  the object; that fact is the invariant `Memory.Sized`.  That every stored
  value is a `Byte` is the invariant `Memory.Bytes`.
* `write`, `write_zero_page` and `do_dma_transfer` call each other.  Each is
  embedded with the callee it re-enters passed as an argument, and the knot is
  tied by `write_fuel`; `write` runs it with the call depth the source reaches
  (`write` → `write_zero_page` → `do_dma_transfer` → `write` on a sprite-table
  address), and `write_fuel_stable` shows that more depth changes nothing.
* An `sf::Image` is a function from pixel coordinates to colours.  A loop body
  that may `return` yields a `Flow`, and `for_flow` stops at the first `return`.
-/

namespace Gameboy

/-! ## Data model -/

/-- The fields of `class Memory` that hold state: the cartridge image, the five
fixed-size regions and the two joypad input latches. -/
structure Memory where
  CART_ROM : List Nat
  VRAM : List Nat
  ERAM : List Nat
  WRAM : List Nat
  OAM : List Nat
  ZRAM : List Nat
  joypad_buttons : Nat
  joypad_arrows : Nat

/-- The region sizes the constructor `Memory::Memory` allocates
(`vector<Byte>(0x2000)` for WRAM, ERAM and VRAM, `vector<Byte>(0x0100)` for
ZRAM and OAM).  No member function resizes these vectors. -/
def Memory.Sized (m : Memory) : Prop :=
  m.VRAM.length = 0x2000 ∧ m.ERAM.length = 0x2000 ∧ m.WRAM.length = 0x2000 ∧
  m.OAM.length = 0x100 ∧ m.ZRAM.length = 0x100

instance (m : Memory) : Decidable m.Sized := by
  unfold Memory.Sized; infer_instance

/-- Every element of a vector is a `Byte`. -/
def vec_bytes (v : List Nat) : Prop := ∀ x ∈ v, x < 0x100

instance (v : List Nat) : Decidable (vec_bytes v) := by
  unfold vec_bytes; infer_instance

/-- The element type of the regions and of the latches: every stored value is
a `Byte` (the regions are `vector<Byte>`; the latches are returned by
`get_joypad_state` as a `Byte`). -/
def Memory.Bytes (m : Memory) : Prop :=
  vec_bytes m.CART_ROM ∧ vec_bytes m.VRAM ∧ vec_bytes m.ERAM ∧ vec_bytes m.WRAM ∧
  vec_bytes m.OAM ∧ vec_bytes m.ZRAM ∧ m.joypad_buttons < 0x100 ∧ m.joypad_arrows < 0x100

instance (m : Memory) : Decidable m.Bytes := by
  unfold Memory.Bytes; infer_instance

/-- Indexed load `v[i]` of a `std::vector<Byte>`. -/
def vec_get (v : List Nat) (i : Nat) : Option Nat := v[i]?

/-- Indexed store `v[i] = b` of a `std::vector<Byte>`. -/
def vec_set (v : List Nat) (i : Nat) (b : Nat) : Option (List Nat) :=
  if i < v.length then some (v.set i b) else none

/-- The call `fill(v.begin(), v.end(), b)`: every element becomes `b`, the
size stays. -/
def vec_fill (v : List Nat) (b : Nat) : List Nat := List.replicate v.length b

/-! ### Memory registers

The constructor binds each `MemoryRegister` to one byte of ZRAM
(`P1 = MemoryRegister(&ZRAM[0x00])`, ...).  A register is embedded as the
ZRAM index it points at. -/

def P1 : Nat := 0x00
def DIV : Nat := 0x04
def TIMA : Nat := 0x05
def TMA : Nat := 0x06
def TAC : Nat := 0x07
def LCDC : Nat := 0x40
def STAT : Nat := 0x41
def SCY : Nat := 0x42
def SCX : Nat := 0x43
def LY : Nat := 0x44
def LYC : Nat := 0x45
def DMA : Nat := 0x46
def BGP : Nat := 0x47
def OBP0 : Nat := 0x48
def OBP1 : Nat := 0x49
def WY : Nat := 0x4A
def WX : Nat := 0x4B
def IF : Nat := 0x0F
def IE : Nat := 0xFF

/-- Modelled from the spec: `MemoryRegister::get` is declared in `memory.h`,
which is not among the sources.  The spec calls the registers named accessors
of zero-page bytes; `get` returns the byte the register is bound to. -/
def MemoryRegister.get (m : Memory) (reg : Nat) : Option Nat := vec_get m.ZRAM reg

/-- Modelled from the spec: `MemoryRegister::set` is declared in `memory.h`,
which is not among the sources.  `set` stores a byte in the zero-page byte the
register is bound to. -/
def MemoryRegister.set (m : Memory) (reg : Nat) (value : Nat) : Option Memory :=
  (vec_set m.ZRAM reg (value % 0x100)).map fun z => { m with ZRAM := z }

/-! ## Operations -/

/-- The register stores of `Memory::reset`, in source order
(`P1.set(0x00); DIV.set(0x00); ...; IE.set(0x00);`). -/
def reset_defaults : List (Nat × Nat) :=
  [(P1, 0x00), (DIV, 0x00), (TIMA, 0x00), (TMA, 0x00), (TAC, 0x00), (LCDC, 0x83),
   (SCY, 0x00), (SCX, 0x00), (LYC, 0x00), (BGP, 0xFC), (OBP0, 0xFF), (OBP1, 0xFF),
   (WY, 0x00), (WX, 0x00), (IF, 0x00), (IE, 0x00)]

/-- The five `fill` calls that open `Memory::reset`. -/
def reset_fill (m : Memory) : Memory :=
  { m with
    WRAM := vec_fill m.WRAM 0
    ERAM := vec_fill m.ERAM 0
    ZRAM := vec_fill m.ZRAM 0
    VRAM := vec_fill m.VRAM 0
    OAM := vec_fill m.OAM 0 }

/-- The function `Memory::reset`: the five `fill` calls, the sixteen register stores, and
the two joypad latches set to `0xF`. -/
def reset (m : Memory) : Option Memory :=
  (reset_defaults.foldlM (fun s rv => MemoryRegister.set s rv.1 rv.2) (reset_fill m)).map
    fun s => { s with joypad_buttons := 0xF, joypad_arrows := 0xF }

/-- The constructor `Memory::Memory`: allocate the five regions, then `reset()`.  The
cartridge vector and the latches are default-initialised members; the latches
are assigned by `reset` before anything reads them. -/
def Memory.new : Option Memory :=
  reset
    { CART_ROM := []
      VRAM := List.replicate 0x2000 0
      ERAM := List.replicate 0x2000 0
      WRAM := List.replicate 0x2000 0
      OAM := List.replicate 0x0100 0
      ZRAM := List.replicate 0x0100 0
      joypad_buttons := 0
      joypad_arrows := 0 }

/-- The assignment `CART_ROM = buffer` of `Memory::load_rom`. -/
def load_image (m : Memory) (buffer : List Nat) : Memory := { m with CART_ROM := buffer }

/-- The function `Memory::get_joypad_state`: the `switch` on the stored select bits. -/
def get_joypad_state (m : Memory) : Option Nat := do
  let request ← MemoryRegister.get m P1
  if request = 0x10 then some m.joypad_buttons
  else if request = 0x20 then some m.joypad_arrows
  else some 0xE

/-- The function `Memory::read`: the outer `switch (location & 0xF000)`, the inner
`switch (location & 0x0F00)` of the `0xF000` case, and the `default: return 0`
that the inner switch would fall into if none of its cases matched. -/
def read (m : Memory) (location : Nat) : Option Nat :=
  let location := location % 0x10000
  let sel := location &&& 0xF000
  if sel = 0x0000 ∨ sel = 0x1000 ∨ sel = 0x2000 ∨ sel = 0x3000 then
    vec_get m.CART_ROM location
  else if sel = 0x4000 ∨ sel = 0x5000 ∨ sel = 0x6000 ∨ sel = 0x7000 then
    vec_get m.CART_ROM location
  else if sel = 0x8000 ∨ sel = 0x9000 then
    vec_get m.VRAM (location &&& 0x1FFF)
  else if sel = 0xA000 ∨ sel = 0xB000 then
    vec_get m.ERAM (location &&& 0x1FFF)
  else if sel = 0xC000 ∨ sel = 0xD000 ∨ sel = 0xE000 then
    vec_get m.WRAM (location &&& 0x1FFF)
  else if sel = 0xF000 then
    let sub := location &&& 0x0F00
    if sub = 0x000 ∨ sub = 0x100 ∨ sub = 0x200 ∨ sub = 0x300 ∨
       sub = 0x400 ∨ sub = 0x500 ∨ sub = 0x600 ∨ sub = 0x700 ∨
       sub = 0x800 ∨ sub = 0x900 ∨ sub = 0xA00 ∨ sub = 0xB00 ∨
       sub = 0xC00 ∨ sub = 0xD00 then
      vec_get m.WRAM (location &&& 0x1FFF)
    else if sub = 0xE00 then
      vec_get m.OAM (location &&& 0xFF)
    else if sub = 0xF00 then
      if location = 0xFF00 then get_joypad_state m
      else vec_get m.ZRAM (location &&& 0xFF)
    else some 0
  else some 0

/-- The function `Memory::do_dma_transfer`, with the `write` it calls passed in:
`address = DMA.get() << 8` as a `Byte_2`, then
`for (i = 0; i < 0xA0; i++) write(0xFE00 + i, read(address + i))`. -/
def do_dma_transfer (write : Memory → Nat → Nat → Option Memory) (m : Memory) :
    Option Memory := do
  let dma ← MemoryRegister.get m DMA
  let address := (dma <<< 8) % 0x10000
  (List.range 0xA0).foldlM
    (fun m i => do
      let b ← read m (address + i)
      write m (0xFE00 + i) b)
    m

/-- The function `Memory::write_zero_page`, with the `write` that `do_dma_transfer` calls
passed in. -/
def write_zero_page (write : Memory → Nat → Nat → Option Memory) (m : Memory)
    (location data : Nat) : Option Memory :=
  let location := location % 0x10000
  let data := data % 0x100
  if location = 0xFF00 then
    (vec_set m.ZRAM 0x00 (data &&& 0x30)).map fun z => { m with ZRAM := z }
  else if location = 0xFF04 then
    (vec_set m.ZRAM 0x04 0).map fun z => { m with ZRAM := z }
  else if location = 0xFF44 then
    (vec_set m.ZRAM 0x44 0).map fun z => { m with ZRAM := z }
  else if location = 0xFF46 then do
    let z ← vec_set m.ZRAM 0x46 data
    do_dma_transfer write { m with ZRAM := z }
  else
    (vec_set m.ZRAM (location &&& 0xFF) data).map fun z => { m with ZRAM := z }

/-- The body of `Memory::write`, with the `write` reached again through
`write_zero_page` passed in.  The source's switches have no `default`; every
value of the masked address is one of the listed cases, and an unlisted value
would leave the state as it is. -/
def write_body (write : Memory → Nat → Nat → Option Memory) (m : Memory)
    (location data : Nat) : Option Memory :=
  let location := location % 0x10000
  let data := data % 0x100
  let sel := location &&& 0xF000
  if sel = 0x0000 ∨ sel = 0x1000 ∨ sel = 0x2000 ∨ sel = 0x3000 then
    some m
  else if sel = 0x4000 ∨ sel = 0x5000 ∨ sel = 0x6000 ∨ sel = 0x7000 then
    some m
  else if sel = 0x8000 ∨ sel = 0x9000 then
    (vec_set m.VRAM (location &&& 0x1FFF) data).map fun v => { m with VRAM := v }
  else if sel = 0xA000 ∨ sel = 0xB000 then
    (vec_set m.ERAM (location &&& 0x1FFF) data).map fun v => { m with ERAM := v }
  else if sel = 0xC000 ∨ sel = 0xD000 ∨ sel = 0xE000 then
    (vec_set m.WRAM (location &&& 0x1FFF) data).map fun v => { m with WRAM := v }
  else if sel = 0xF000 then
    let sub := location &&& 0x0F00
    if sub = 0x000 ∨ sub = 0x100 ∨ sub = 0x200 ∨ sub = 0x300 ∨
       sub = 0x400 ∨ sub = 0x500 ∨ sub = 0x600 ∨ sub = 0x700 ∨
       sub = 0x800 ∨ sub = 0x900 ∨ sub = 0xA00 ∨ sub = 0xB00 ∨
       sub = 0xC00 ∨ sub = 0xD00 then
      (vec_set m.WRAM (location &&& 0x1FFF) data).map fun v => { m with WRAM := v }
    else if sub = 0xE00 then
      (vec_set m.OAM (location &&& 0xFF) data).map fun v => { m with OAM := v }
    else if sub = 0xF00 then
      write_zero_page write m location data
    else some m
  else some m

/-- The function `Memory::write` unrolled to a given call depth; depth zero stands for a
call that was not unrolled and yields no result. -/
def write_fuel : Nat → Memory → Nat → Nat → Option Memory
  | 0 => fun _ _ _ => none
  | n + 1 => write_body (write_fuel n)

/-- The function `Memory::write`. -/
def write (m : Memory) (location data : Nat) : Option Memory :=
  write_fuel 2 m location data

/-! ## Sample states

Concrete address spaces at which the theorems below are instantiated. -/

/-- An address space with the constructor's region sizes, a 16 KiB cartridge
image (half the size of the ROM window), a recognisable byte in each region,
the joypad register deselected, button A held and direction Left held. -/
def sample : Memory :=
  { CART_ROM := List.replicate 0x4000 0xC3
    VRAM := List.replicate 0x2000 0x11
    ERAM := List.replicate 0x2000 0x22
    WRAM := List.replicate 0x2000 0x33
    OAM := List.replicate 0x0100 0x44
    ZRAM := List.replicate 0x0100 0x00
    joypad_buttons := 0xE
    joypad_arrows := 0xD }

/-- The sample state with no key held: both latches read `0xF`. -/
def sample_idle : Memory := { sample with joypad_buttons := 0xF, joypad_arrows := 0xF }

/-- The sample state before any image is loaded: the cartridge vector is
empty, as the constructor leaves it. -/
def sample_no_image : Memory := { sample with CART_ROM := [] }

/-! ## Address decoding, instrumented -/

/-- The vector element a call of `read` loads: the region and the index, or
`fallback` for the `default: return 0` of the outer switch.  `joypad` is the
call of `get_joypad_state`, which loads the register `P1`. -/
inductive Access where
  | cart (index : Nat)
  | vram (index : Nat)
  | eram (index : Nat)
  | wram (index : Nat)
  | oam (index : Nat)
  | zram (index : Nat)
  | joypad
  | fallback
  deriving DecidableEq, Repr

/-- The switch of `Memory::read` with every `return` replaced by the access it
makes. -/
def read_access (location : Nat) : Access :=
  let location := location % 0x10000
  let sel := location &&& 0xF000
  if sel = 0x0000 ∨ sel = 0x1000 ∨ sel = 0x2000 ∨ sel = 0x3000 then
    .cart location
  else if sel = 0x4000 ∨ sel = 0x5000 ∨ sel = 0x6000 ∨ sel = 0x7000 then
    .cart location
  else if sel = 0x8000 ∨ sel = 0x9000 then
    .vram (location &&& 0x1FFF)
  else if sel = 0xA000 ∨ sel = 0xB000 then
    .eram (location &&& 0x1FFF)
  else if sel = 0xC000 ∨ sel = 0xD000 ∨ sel = 0xE000 then
    .wram (location &&& 0x1FFF)
  else if sel = 0xF000 then
    let sub := location &&& 0x0F00
    if sub = 0x000 ∨ sub = 0x100 ∨ sub = 0x200 ∨ sub = 0x300 ∨
       sub = 0x400 ∨ sub = 0x500 ∨ sub = 0x600 ∨ sub = 0x700 ∨
       sub = 0x800 ∨ sub = 0x900 ∨ sub = 0xA00 ∨ sub = 0xB00 ∨
       sub = 0xC00 ∨ sub = 0xD00 then
      .wram (location &&& 0x1FFF)
    else if sub = 0xE00 then
      .oam (location &&& 0xFF)
    else if sub = 0xF00 then
      if location = 0xFF00 then .joypad
      else .zram (location &&& 0xFF)
    else .fallback
  else .fallback

/-- The load an `Access` stands for. -/
def read_at (m : Memory) : Access → Option Nat
  | .cart i => vec_get m.CART_ROM i
  | .vram i => vec_get m.VRAM i
  | .eram i => vec_get m.ERAM i
  | .wram i => vec_get m.WRAM i
  | .oam i => vec_get m.OAM i
  | .zram i => vec_get m.ZRAM i
  | .joypad => get_joypad_state m
  | .fallback => some 0

/-- A load `v[i]` from a member vector, as a step of a member function: the
element loaded and the state after the load, which is the state before it. -/
def load_member (region : Memory → List Nat) (i : Nat) (m : Memory) : Option (Nat × Memory) :=
  (vec_get (region m) i).map fun b => (b, m)

/-- The function `Memory::get_joypad_state` as a state transformer, statement
by statement: `request = P1.get()` loads the register, and each `return`
yields the value returned and the state reached. -/
def get_joypad_state_st (m : Memory) : Option (Nat × Memory) :=
  match load_member Memory.ZRAM P1 m with
  | none => none
  | some (request, m1) =>
    if request = 0x10 then some (m1.joypad_buttons, m1)
    else if request = 0x20 then some (m1.joypad_arrows, m1)
    else some (0xE, m1)

/-- The function `Memory::read` as a state transformer, statement by
statement: the byte returned and the state after the call.  Every `return` of
the switch is a load from a member vector or the call of `get_joypad_state`. -/
def read_state (m : Memory) (location : Nat) : Option (Nat × Memory) :=
  let location := location % 0x10000
  let sel := location &&& 0xF000
  if sel = 0x0000 ∨ sel = 0x1000 ∨ sel = 0x2000 ∨ sel = 0x3000 then
    load_member Memory.CART_ROM location m
  else if sel = 0x4000 ∨ sel = 0x5000 ∨ sel = 0x6000 ∨ sel = 0x7000 then
    load_member Memory.CART_ROM location m
  else if sel = 0x8000 ∨ sel = 0x9000 then
    load_member Memory.VRAM (location &&& 0x1FFF) m
  else if sel = 0xA000 ∨ sel = 0xB000 then
    load_member Memory.ERAM (location &&& 0x1FFF) m
  else if sel = 0xC000 ∨ sel = 0xD000 ∨ sel = 0xE000 then
    load_member Memory.WRAM (location &&& 0x1FFF) m
  else if sel = 0xF000 then
    let sub := location &&& 0x0F00
    if sub = 0x000 ∨ sub = 0x100 ∨ sub = 0x200 ∨ sub = 0x300 ∨
       sub = 0x400 ∨ sub = 0x500 ∨ sub = 0x600 ∨ sub = 0x700 ∨
       sub = 0x800 ∨ sub = 0x900 ∨ sub = 0xA00 ∨ sub = 0xB00 ∨
       sub = 0xC00 ∨ sub = 0xD00 then
      load_member Memory.WRAM (location &&& 0x1FFF) m
    else if sub = 0xE00 then
      load_member Memory.OAM (location &&& 0xFF) m
    else if sub = 0xF00 then
      if location = 0xFF00 then get_joypad_state_st m
      else load_member Memory.ZRAM (location &&& 0xFF) m
    else some (0, m)
  else some (0, m)

/-! ## The RAM-size report of `load_rom` -/

/-- The statements under the labels of `switch (read(0x149))` in
`Memory::load_rom`, in source order: `case 1`, `case 2`, `case 3`, `case 4`,
`default`.  Each assigns `size` and `banks`; none ends in `break`. -/
def ram_size_bodies : List (Nat × Nat → Nat × Nat) :=
  [fun _ => (2, 1), fun _ => (8, 1), fun _ => (32, 4), fun _ => (128, 16), fun _ => (0, 0)]

/-- The label the `switch` jumps to: the position of the matching `case`, or of
`default`. -/
def ram_size_entry (code : Nat) : Nat :=
  if code = 1 then 0 else if code = 2 then 1 else if code = 3 then 2
  else if code = 4 then 3 else 4

/-- The `switch` of `Memory::load_rom` on the RAM-size code: control enters at
the label and runs every statement from there to the end of the block.  The
arguments `size` and `banks` are the values the two uninitialised locals hold
before the switch. -/
def ram_size_switch (code size banks : Nat) : Nat × Nat :=
  (ram_size_bodies.drop (ram_size_entry code)).foldl (fun s body => body s) (size, banks)

/-- The values `load_rom` prints after `RAM Size:`, from the header byte at
`0x0149`. -/
def load_rom_ram_size (m : Memory) (size banks : Nat) : Option (Nat × Nat) :=
  (read m 0x149).map fun code => ram_size_switch code size banks

/-! ## Display (`display.cpp`) -/

/-- The colour type `sf::Color` of the graphics library: red, green, blue and
alpha components. -/
structure Color where
  r : Nat
  g : Nat
  b : Nat
  a : Nat
  deriving DecidableEq, Repr

/-- The constructor `sf::Color(r, g, b)`: alpha is 255. -/
def Color.rgb (r g b : Nat) : Color := { r := r, g := g, b := b, a := 255 }

/-- The constant `sf::Color::White`. -/
def Color.White : Color := { r := 255, g := 255, b := 255, a := 255 }

/-- The constant `sf::Color::Transparent`. -/
def Color.Transparent : Color := { r := 0, g := 0, b := 0, a := 0 }

/-- The table `shades_of_gray` as `Display::init` fills it. -/
def shades_of_gray : List Color :=
  [Color.rgb 255 255 255, Color.rgb 198 198 198, Color.rgb 127 127 127, Color.rgb 0 0 0]

/-- The colour `sf::Color(255, 0, 255)` of the `default` branch of
`get_pixel_color`. -/
def error_color : Color := Color.rgb 255 0 255

/-- Modelled from the spec: `is_bit_set` is declared in a header that is not
among the sources.  The spec speaks of the bit positions of a byte;
`is_bit_set(value, bit)` tests bit number `bit` of `value`, as its call in
`get_pixel_color` with `bit` in `0..7` requires. -/
def is_bit_set (value bit : Nat) : Bool := value.testBit bit

/-- Modelled from the spec: the bit-number constants `BIT_0 .. BIT_7` are
declared in a header that is not among the sources. -/
def BIT_4 : Nat := 4

/-- Modelled from the spec: the bit-number constants `BIT_0 .. BIT_7` are
declared in a header that is not among the sources. -/
def BIT_7 : Nat := 7

/-- Modelled from the spec: the bit-number constants `BIT_0 .. BIT_7` are
declared in a header that is not among the sources. -/
def BIT_5 : Nat := 5

/-- The function `Display::get_pixel_color`. -/
def get_pixel_color (palette top bottom bit : Nat) (is_sprite : Bool) : Option Color :=
  let palette := palette % 0x100
  let top := top % 0x100
  let bottom := bottom % 0x100
  let color_3_shade := (palette >>> 6) % 0x100
  let color_2_shade := ((palette >>> 4) &&& 0x03) % 0x100
  let color_1_shade := ((palette >>> 2) &&& 0x03) % 0x100
  let color_0_shade := (palette &&& 0x03) % 0x100
  let first := (is_bit_set top bit).toNat
  let second := (is_bit_set bottom bit).toNat
  let color_code := ((second <<< 1) ||| first) % 0x100
  if color_code = 0x0 then
    if is_sprite then some Color.Transparent else shades_of_gray[color_0_shade]?
  else if color_code = 0x1 then shades_of_gray[color_1_shade]?
  else if color_code = 0x2 then shades_of_gray[color_2_shade]?
  else if color_code = 0x3 then shades_of_gray[color_3_shade]?
  else some error_color

/-- An image `sf::Image` of the display: the colour at each pixel. -/
def Image : Type := Nat → Nat → Color

/-- The call `image.setPixel(x, y, color)`. -/
def setPixel (image : Image) (x y : Nat) (color : Color) : Image :=
  fun x' y' => if x' = x ∧ y' = y then color else image x' y'

/-- The call `image.getPixel(x, y)`. -/
def getPixel (image : Image) (x y : Nat) : Color := image x y

/-- The conversion `(Byte_Signed) tile_id`. -/
def to_signed_byte (value : Nat) : Int :=
  if value % 0x100 < 0x80 then (value % 0x100 : Nat) else ((value % 0x100 : Nat) : Int) - 0x100

/-- The address `offset` that `Display::render_bg_tile_pixel` computes from the
tile id and bit 4 of LCDC (`bg_char_selection`). -/
def bg_tile_offset (bg_char_selection : Bool) (tile_id : Nat) : Nat :=
  let tile_id := tile_id % 0x100
  let bg_data_location : Nat := if bg_char_selection then 0x8000 else 0x9000
  if bg_char_selection then
    (tile_id * 16 + bg_data_location) % 0x10000
  else
    let direction : Int := to_signed_byte tile_id
    let temp_offset : Int := ((bg_data_location : Int) + direction * 16) % 0x10000
    temp_offset.toNat

/-- The two addresses `Display::render_bg_tile_pixel` reads for tile row
`tile_y`: first `high`, then `low`. -/
def bg_tile_row_addresses (offset tile_y : Nat) : Nat × Nat :=
  (offset + tile_y * 2 + 1, offset + tile_y * 2)

/-- The function `Display::render_bg_tile_pixel`: the background image after
the pixel is plotted. -/
def render_bg_tile_pixel (m : Memory) (bg_array : Image)
    (palette display_x display_y tile_x tile_y tile_id : Nat) : Option Image := do
  let lcdc ← MemoryRegister.get m LCDC
  let bg_char_selection := is_bit_set lcdc BIT_4
  let offset := bg_tile_offset bg_char_selection tile_id
  let high ← read m (bg_tile_row_addresses offset tile_y).1
  let low ← read m (bg_tile_row_addresses offset tile_y).2
  let color ← get_pixel_color palette low high tile_x false
  some (setPixel bg_array display_x display_y color)

/-- The values the body of the pixel loop of `Display::render_background`
computes for one screen pixel. -/
structure BgPixel where
  map_x : Nat
  map_y : Nat
  tile_col : Nat
  tile_row : Nat
  loc : Nat
  tile_x_pixel : Nat
  tile_y_pixel : Nat
  deriving DecidableEq, Repr

/-- The body of the pixel loop of `Display::render_background`, up to the call
of `render_bg_tile_pixel`: `bg_code_area` is bit 3 of LCDC, `scroll_x` and
`scroll_y` the scroll registers, `x` and `y` the loop variables. -/
def render_background_pixel (bg_code_area : Bool) (scroll_x scroll_y x y : Nat) : BgPixel :=
  let tile_map_location : Nat := if bg_code_area then 0x9C00 else 0x9800
  let map_x := scroll_x % 0x100 + x
  let map_y := scroll_y % 0x100 + y
  let map_x := if map_x > 255 then map_x - 255 else map_x
  let map_y := if map_y > 255 then map_y - 255 else map_y
  let tile_col := map_x / 8
  let tile_row := map_y / 8
  let tile_map_id := tile_row * 32 + tile_col
  let loc := (tile_map_location + tile_map_id) % 0x10000
  let tile_x_pixel := map_x % 8
  let tile_y_pixel := map_y % 8
  let tile_x_pixel := ((tile_x_pixel : Int) - 7).natAbs
  { map_x := map_x, map_y := map_y, tile_col := tile_col, tile_row := tile_row, loc := loc,
    tile_x_pixel := tile_x_pixel, tile_y_pixel := tile_y_pixel }

/-- How a loop body ended: it ran to its end (or hit `continue`), or it
executed `return`. -/
inductive Flow (σ : Type) where
  | next (state : σ)
  | ret (state : σ)

/-- The state a loop body left. -/
def Flow.state {σ : Type} : Flow σ → σ
  | .next s => s
  | .ret s => s

/-- A `for` loop over the values of a list whose body may `return`: the loop
stops at the first body that returns. -/
def for_flow {σ : Type} (body : Nat → σ → Option (Flow σ)) : List Nat → σ → Option (Flow σ)
  | [], s => some (.next s)
  | i :: l, s =>
    match body i s with
    | none => none
    | some (.ret s') => some (.ret s')
    | some (.next s') => for_flow body l s'

/-- The body of the inner loop of `Display::render_sprite_tile` for column `x`
of row `y`.  The images are created 160 by 144, which is what
`sprites_array.getSize()` returns. -/
def render_sprite_tile_pixel (bg_array : Image) (palette : Nat) (start_x start_y : Int)
    (mirror_x priority : Bool) (low high y x : Nat) (sprites_array : Image) :
    Option (Flow Image) :=
  let pixel_x : Int := if mirror_x then start_x + x else start_x + 7 - x
  let pixel_y : Int := start_y + y
  if pixel_x < 0 ∨ pixel_x ≥ 160 then some (.next sprites_array)
  else if pixel_y < 0 ∨ pixel_y ≥ 144 then some (.next sprites_array)
  else
    match get_pixel_color palette low high x true with
    | none => none
    | some color =>
      let bg_color := getPixel bg_array pixel_x.toNat pixel_y.toNat
      if priority ∧ bg_color ≠ Color.White then some (.ret sprites_array)
      else some (.next (setPixel sprites_array pixel_x.toNat pixel_y.toNat color))

/-- The body of the outer loop of `Display::render_sprite_tile` for row `y`. -/
def render_sprite_tile_row (m : Memory) (bg_array : Image) (palette : Nat)
    (start_x start_y : Int) (tile_id flags y : Nat) (sprites_array : Image) :
    Option (Flow Image) :=
  let sprite_data_location := 0x8000
  let priority := is_bit_set flags BIT_7
  let mirror_x := is_bit_set flags BIT_5
  let offset := (tile_id % 0x100) * 16 + sprite_data_location
  match read m (offset + y * 2 + 1), read m (offset + y * 2) with
  | some high, some low =>
    for_flow (render_sprite_tile_pixel bg_array palette start_x start_y mirror_x priority
      low high y) (List.range 8) sprites_array
  | _, _ => none

/-- The function `Display::render_sprite_tile`: the sprite image after the
call. -/
def render_sprite_tile (m : Memory) (bg_array : Image) (palette : Nat)
    (start_x start_y : Int) (tile_id flags : Nat) (sprites_array : Image) : Option Image :=
  (for_flow (render_sprite_tile_row m bg_array palette start_x start_y tile_id flags)
    (List.range 8) sprites_array).map Flow.state

/-- A background image that is white except for the pixel at `(7, 0)`. -/
def sample_bg : Image := fun x y => if x = 7 ∧ y = 0 then error_color else Color.White

/-- A sprite image with every pixel transparent, as `Display::render` creates
it. -/
def sample_sprites : Image := fun _ _ => Color.Transparent

/-! ## Interrupt constants (`cpu.h`) -/

def INTERRUPT_V_BLANKING : Nat := 0b00000001
def INTERRUPT_LCDC : Nat := 0b00000010
def INTERRUPT_TIMER_OVERFLOW : Nat := 0b00000100
def INTERRUPT_SERIAL_IO_DONE : Nat := 0b00001000
def INTERRUPT_P10_P13_LOW : Nat := 0b00010000

def INT_CALL_V_BLANKING : Nat := 0x0040
def INT_CALL_LCDC : Nat := 0x0048
def INT_CALL_TIMER_OVERFLOW : Nat := 0x0050
def INT_CALL_SERIAL_IO_DONE : Nat := 0x0058
def INT_CALL_P10_P13_LOW : Nat := 0x0060

/-- The five interrupt sources of `class CPU`, each request mask paired with
the service address of the same name, listed in the order of the declarations:
vertical blanking, display controller, timer overflow, serial transfer done,
joypad lines low. -/
def interrupt_table : List (Nat × Nat) :=
  [(INTERRUPT_V_BLANKING, INT_CALL_V_BLANKING),
   (INTERRUPT_LCDC, INT_CALL_LCDC),
   (INTERRUPT_TIMER_OVERFLOW, INT_CALL_TIMER_OVERFLOW),
   (INTERRUPT_SERIAL_IO_DONE, INT_CALL_SERIAL_IO_DONE),
   (INTERRUPT_P10_P13_LOW, INT_CALL_P10_P13_LOW)]

end Gameboy

namespace Gameboy

/-! ## Bit masks as arithmetic -/

/-- Masking with a run of `w` one-bits that starts at bit `s` selects the
field of `a` made of those bits. -/
theorem and_field (a s w : Nat) :
    a &&& ((2 ^ w - 1) <<< s) = ((a >>> s) % 2 ^ w) <<< s := by
  apply Nat.eq_of_testBit_eq
  intro i
  simp only [Nat.testBit_and, Nat.testBit_shiftLeft, Nat.testBit_mod_two_pow,
    Nat.testBit_shiftRight, Nat.testBit_two_pow_sub_one]
  by_cases h : s ≤ i
  · have e : s + (i - s) = i := by omega
    simp [h, e, Bool.and_comm]
  · simp [h]

theorem and_F000 (a : Nat) : a &&& 0xF000 = a / 0x1000 % 0x10 * 0x1000 := by
  have h := and_field a 12 4
  simpa [Nat.shiftLeft_eq, Nat.shiftRight_eq_div_pow] using h

theorem and_0F00 (a : Nat) : a &&& 0x0F00 = a / 0x100 % 0x10 * 0x100 := by
  have h := and_field a 8 4
  simpa [Nat.shiftLeft_eq, Nat.shiftRight_eq_div_pow] using h

theorem and_1FFF (a : Nat) : a &&& 0x1FFF = a % 0x2000 :=
  Nat.and_pow_two_sub_one_eq_mod a 13

theorem and_00FF (a : Nat) : a &&& 0xFF = a % 0x100 :=
  Nat.and_pow_two_sub_one_eq_mod a 8

/-! ## `read` by region -/

theorem read_rom (m : Memory) (a : Nat) (h : a < 0x8000) :
    read m a = vec_get m.CART_ROM a := by
  have e : a % 0x10000 = a := Nat.mod_eq_of_lt (by omega)
  simp only [read, and_F000, e]
  by_cases c : a < 0x4000
  · rw [if_pos (by omega)]
  · rw [if_neg (by omega), if_pos (by omega)]

theorem read_vram (m : Memory) (a : Nat) (h1 : 0x8000 ≤ a) (h2 : a < 0xA000) :
    read m a = vec_get m.VRAM (a - 0x8000) := by
  have e : a % 0x10000 = a := Nat.mod_eq_of_lt (by omega)
  have e2 : a % 0x2000 = a - 0x8000 := by omega
  simp only [read, and_F000, and_1FFF, e, e2]
  rw [if_neg (by omega), if_neg (by omega), if_pos (by omega)]

theorem read_eram (m : Memory) (a : Nat) (h1 : 0xA000 ≤ a) (h2 : a < 0xC000) :
    read m a = vec_get m.ERAM (a - 0xA000) := by
  have e : a % 0x10000 = a := Nat.mod_eq_of_lt (by omega)
  have e2 : a % 0x2000 = a - 0xA000 := by omega
  simp only [read, and_F000, and_1FFF, e, e2]
  rw [if_neg (by omega), if_neg (by omega), if_neg (by omega), if_pos (by omega)]

theorem read_wram (m : Memory) (a : Nat) (h1 : 0xC000 ≤ a) (h2 : a < 0xFE00) :
    read m a = vec_get m.WRAM (a % 0x2000) := by
  have e : a % 0x10000 = a := Nat.mod_eq_of_lt (by omega)
  simp only [read, and_F000, and_0F00, and_1FFF, e]
  rw [if_neg (by omega), if_neg (by omega), if_neg (by omega), if_neg (by omega)]
  by_cases c : a < 0xF000
  · rw [if_pos (by omega)]
  · rw [if_neg (by omega), if_pos (by omega), if_pos (by omega)]

theorem read_oam (m : Memory) (a : Nat) (h1 : 0xFE00 ≤ a) (h2 : a < 0xFF00) :
    read m a = vec_get m.OAM (a - 0xFE00) := by
  have e : a % 0x10000 = a := Nat.mod_eq_of_lt (by omega)
  have e2 : a % 0x100 = a - 0xFE00 := by omega
  simp only [read, and_F000, and_0F00, and_00FF, e, e2]
  rw [if_neg (by omega), if_neg (by omega), if_neg (by omega), if_neg (by omega),
    if_neg (by omega), if_pos (by omega), if_neg (by omega), if_pos (by omega)]

theorem read_page (m : Memory) (a : Nat) (h1 : 0xFF00 ≤ a) (h2 : a < 0x10000) :
    read m a = if a = 0xFF00 then get_joypad_state m else vec_get m.ZRAM (a - 0xFF00) := by
  have e : a % 0x10000 = a := Nat.mod_eq_of_lt (by omega)
  have e2 : a % 0x100 = a - 0xFF00 := by omega
  simp only [read, and_F000, and_0F00, and_00FF, e, e2]
  rw [if_neg (by omega), if_neg (by omega), if_neg (by omega), if_neg (by omega),
    if_neg (by omega), if_pos (by omega), if_neg (by omega), if_neg (by omega),
    if_pos (by omega)]

theorem read_joypad (m : Memory) : read m 0xFF00 = get_joypad_state m := by
  rw [read_page m 0xFF00 (by omega) (by omega), if_pos rfl]

theorem read_zram (m : Memory) (a : Nat) (h1 : 0xFF00 < a) (h2 : a < 0x10000) :
    read m a = vec_get m.ZRAM (a - 0xFF00) := by
  rw [read_page m a (by omega) h2, if_neg (by omega)]

/-! ## Vectors -/

theorem vec_get_lt {v : List Nat} {i : Nat} (h : i < v.length) :
    vec_get v i = some (v.getD i 0) := by
  simp [vec_get, List.getD, List.getElem?_eq_getElem h]

theorem vec_get_isSome {v : List Nat} {i : Nat} (h : i < v.length) :
    ∃ b, vec_get v i = some b := ⟨_, vec_get_lt h⟩

theorem vec_get_ge {v : List Nat} {i : Nat} (h : v.length ≤ i) : vec_get v i = none := by
  simp [vec_get, h]

theorem vec_get_byte {v : List Nat} {i b : Nat} (hv : vec_bytes v) (h : vec_get v i = some b) :
    b < 0x100 := by
  unfold vec_get at h
  exact hv b (List.getElem?_mem h)

theorem vec_set_lt {v : List Nat} {i : Nat} (b : Nat) (h : i < v.length) :
    vec_set v i b = some (v.set i b) := by
  simp [vec_set, h]

theorem vec_get_set (v : List Nat) (i j b : Nat) :
    vec_get (v.set i b) j = if i = j then (if i < v.length then some b else none) else vec_get v j := by
  simp [vec_get, List.getElem?_set]

theorem vec_bytes_set {v : List Nat} (hv : vec_bytes v) (i : Nat) {b : Nat} (hb : b < 0x100) :
    vec_bytes (v.set i b) := by
  intro x hx
  rcases List.mem_or_eq_of_mem_set hx with h | h
  · exact hv x h
  · exact h ▸ hb

theorem vec_bytes_fill (v : List Nat) : vec_bytes (vec_fill v 0) := by
  intro x hx
  simp [vec_fill] at hx
  omega

/-! ## `write` by region -/

section
variable (w : Memory → Nat → Nat → Option Memory)

theorem write_body_rom (m : Memory) (a d : Nat) (h : a < 0x8000) :
    write_body w m a d = some m := by
  have e : a % 0x10000 = a := Nat.mod_eq_of_lt (by omega)
  simp only [write_body, and_F000, e]
  by_cases c : a < 0x4000
  · rw [if_pos (by omega)]
  · rw [if_neg (by omega), if_pos (by omega)]

theorem write_body_vram (m : Memory) (a d : Nat) (h1 : 0x8000 ≤ a) (h2 : a < 0xA000) :
    write_body w m a d =
      (vec_set m.VRAM (a - 0x8000) (d % 0x100)).map fun v => { m with VRAM := v } := by
  have e : a % 0x10000 = a := Nat.mod_eq_of_lt (by omega)
  have e2 : a % 0x2000 = a - 0x8000 := by omega
  simp only [write_body, and_F000, and_1FFF, e, e2]
  rw [if_neg (by omega), if_neg (by omega), if_pos (by omega)]

theorem write_body_eram (m : Memory) (a d : Nat) (h1 : 0xA000 ≤ a) (h2 : a < 0xC000) :
    write_body w m a d =
      (vec_set m.ERAM (a - 0xA000) (d % 0x100)).map fun v => { m with ERAM := v } := by
  have e : a % 0x10000 = a := Nat.mod_eq_of_lt (by omega)
  have e2 : a % 0x2000 = a - 0xA000 := by omega
  simp only [write_body, and_F000, and_1FFF, e, e2]
  rw [if_neg (by omega), if_neg (by omega), if_neg (by omega), if_pos (by omega)]

theorem write_body_wram (m : Memory) (a d : Nat) (h1 : 0xC000 ≤ a) (h2 : a < 0xFE00) :
    write_body w m a d =
      (vec_set m.WRAM (a % 0x2000) (d % 0x100)).map fun v => { m with WRAM := v } := by
  have e : a % 0x10000 = a := Nat.mod_eq_of_lt (by omega)
  simp only [write_body, and_F000, and_0F00, and_1FFF, e]
  rw [if_neg (by omega), if_neg (by omega), if_neg (by omega), if_neg (by omega)]
  by_cases c : a < 0xF000
  · rw [if_pos (by omega)]
  · rw [if_neg (by omega), if_pos (by omega), if_pos (by omega)]

theorem write_body_oam (m : Memory) (a d : Nat) (h1 : 0xFE00 ≤ a) (h2 : a < 0xFF00) :
    write_body w m a d =
      (vec_set m.OAM (a - 0xFE00) (d % 0x100)).map fun v => { m with OAM := v } := by
  have e : a % 0x10000 = a := Nat.mod_eq_of_lt (by omega)
  have e2 : a % 0x100 = a - 0xFE00 := by omega
  simp only [write_body, and_F000, and_0F00, and_00FF, e, e2]
  rw [if_neg (by omega), if_neg (by omega), if_neg (by omega), if_neg (by omega),
    if_neg (by omega), if_pos (by omega), if_neg (by omega), if_pos (by omega)]

theorem write_body_page (m : Memory) (a d : Nat) (h1 : 0xFF00 ≤ a) (h2 : a < 0x10000) :
    write_body w m a d = write_zero_page w m a (d % 0x100) := by
  have e : a % 0x10000 = a := Nat.mod_eq_of_lt (by omega)
  simp only [write_body, and_F000, and_0F00, e]
  rw [if_neg (by omega), if_neg (by omega), if_neg (by omega), if_neg (by omega),
    if_neg (by omega), if_pos (by omega), if_neg (by omega), if_neg (by omega),
    if_pos (by omega)]

/-- A zero-page store other than the DMA request does not call `write`. -/
theorem write_zero_page_plain (m : Memory) (a d : Nat) (h1 : 0xFF00 ≤ a) (h2 : a < 0x10000)
    (h3 : a ≠ 0xFF46) :
    write_zero_page w m a d =
      (vec_set m.ZRAM (a - 0xFF00)
        (if a = 0xFF00 then (d % 0x100) &&& 0x30
         else if a = 0xFF04 ∨ a = 0xFF44 then 0 else d % 0x100)).map
        fun z => { m with ZRAM := z } := by
  have e : a % 0x10000 = a := Nat.mod_eq_of_lt (by omega)
  have e2 : a % 0x100 = a - 0xFF00 := by omega
  simp only [write_zero_page, and_00FF, e, e2]
  by_cases c0 : a = 0xFF00
  · subst c0; simp
  by_cases c1 : a = 0xFF04
  · subst c1; simp
  by_cases c2 : a = 0xFF44
  · subst c2; simp
  rw [if_neg c0, if_neg c1, if_neg c2, if_neg h3, if_neg c0, if_neg (by omega)]

theorem write_zero_page_dma (m : Memory) (d : Nat) :
    write_zero_page w m 0xFF46 d =
      (vec_set m.ZRAM 0x46 (d % 0x100)).bind fun z => do_dma_transfer w { m with ZRAM := z } := by
  simp only [write_zero_page]
  rfl

end

/-! ## Frame lemmas for `read` -/

/-- The result of `read` depends only on the region the address decodes to. -/
theorem read_congr (m1 m2 : Memory) (a : Nat) (h : a < 0x10000)
    (hrom : a < 0x8000 → m1.CART_ROM = m2.CART_ROM)
    (hvram : 0x8000 ≤ a → a < 0xA000 → m1.VRAM = m2.VRAM)
    (heram : 0xA000 ≤ a → a < 0xC000 → m1.ERAM = m2.ERAM)
    (hwram : 0xC000 ≤ a → a < 0xFE00 → m1.WRAM = m2.WRAM)
    (hoam : 0xFE00 ≤ a → a < 0xFF00 → m1.OAM = m2.OAM)
    (hzram : 0xFF00 ≤ a → m1.ZRAM = m2.ZRAM)
    (hjoy : a = 0xFF00 → m1.joypad_buttons = m2.joypad_buttons ∧
      m1.joypad_arrows = m2.joypad_arrows) :
    read m1 a = read m2 a := by
  by_cases c1 : a < 0x8000
  · rw [read_rom _ _ c1, read_rom _ _ c1, hrom c1]
  by_cases c2 : a < 0xA000
  · rw [read_vram _ _ (by omega) c2, read_vram _ _ (by omega) c2, hvram (by omega) c2]
  by_cases c3 : a < 0xC000
  · rw [read_eram _ _ (by omega) c3, read_eram _ _ (by omega) c3, heram (by omega) c3]
  by_cases c4 : a < 0xFE00
  · rw [read_wram _ _ (by omega) c4, read_wram _ _ (by omega) c4, hwram (by omega) c4]
  by_cases c5 : a < 0xFF00
  · rw [read_oam _ _ (by omega) c5, read_oam _ _ (by omega) c5, hoam (by omega) c5]
  rw [read_page _ _ (by omega) h, read_page _ _ (by omega) h, hzram (by omega)]
  by_cases c6 : a = 0xFF00
  · have hj := hjoy c6
    simp only [if_pos c6, get_joypad_state, MemoryRegister.get, hzram (by omega), hj.1, hj.2]
  · simp only [if_neg c6]

/-- The loop of `do_dma_transfer`, run over a list of indices: when the source
bytes `f i` do not depend on the sprite table, the loop stores `f i` at
sprite-table index `i` for every `i` of the list and changes nothing else. -/
theorem dma_loop_spec (w : Memory → Nat → Nat → Option Memory)
    (hw : ∀ (s : Memory) (i b : Nat), i < 0x100 →
      w s (0xFE00 + i) b = (vec_set s.OAM i (b % 0x100)).map fun v => { s with OAM := v })
    (m : Memory) (address : Nat) (f : Nat → Nat) (l : List Nat)
    (hl : ∀ i ∈ l, i < 0x100) (hf : ∀ i ∈ l, f i < 0x100)
    (hsrc : ∀ o : List Nat, o.length = 0x100 → ∀ i ∈ l,
      read { m with OAM := o } (address + i) = some (f i)) :
    ∀ o : List Nat, o.length = 0x100 →
      ∃ o', l.foldlM
          (fun s i => do
            let b ← read s (address + i)
            w s (0xFE00 + i) b)
          { m with OAM := o } = some { m with OAM := o' } ∧
        o'.length = 0x100 ∧
        ∀ j, vec_get o' j = if j ∈ l then some (f j) else vec_get o j := by
  induction l with
  | nil =>
    intro o ho
    exact ⟨o, by simp, ho, by simp⟩
  | cons i l ih =>
    intro o ho
    have hi : i < 0x100 := hl i (List.mem_cons_self _ _)
    have hfi : f i % 0x100 = f i := Nat.mod_eq_of_lt (hf i (List.mem_cons_self _ _))
    obtain ⟨o', h1, h2, h3⟩ :=
      ih (fun j hj => hl j (List.mem_cons_of_mem _ hj))
        (fun j hj => hf j (List.mem_cons_of_mem _ hj))
        (fun o ho j hj => hsrc o ho j (List.mem_cons_of_mem _ hj))
        (o.set i (f i)) (by simpa using ho)
    refine ⟨o', ?_, h2, ?_⟩
    · rw [List.foldlM_cons, hsrc o ho i (List.mem_cons_self _ _)]
      simp only [Option.bind_eq_bind, Option.some_bind, hw _ i _ hi, hfi]
      rw [vec_set_lt _ (by simpa [ho] using hi)]
      exact h1
    · intro j
      rw [h3 j, vec_get_set]
      by_cases c : i = j
      · subst c
        simp [ho, hi]
      · have c' : ¬ j = i := fun e => c e.symm
        simp [c, c']

/-! ## Call depth of `write` -/

theorem foldlM_option_congr {σ α : Type} (f g : σ → α → Option σ) (l : List α)
    (h : ∀ s, ∀ x ∈ l, f s x = g s x) (s : σ) : l.foldlM f s = l.foldlM g s := by
  induction l generalizing s with
  | nil => rfl
  | cons x l ih =>
    rw [List.foldlM_cons, List.foldlM_cons, h s x (List.mem_cons_self _ _)]
    cases g s x with
    | none => rfl
    | some t => exact ih (fun s y hy => h s y (List.mem_cons_of_mem _ hy)) t

/-- The transfer uses the `write` it is given on sprite-table addresses only. -/
theorem do_dma_transfer_congr (w1 w2 : Memory → Nat → Nat → Option Memory)
    (h : ∀ (s : Memory) (i b : Nat), i < 0xA0 → w1 s (0xFE00 + i) b = w2 s (0xFE00 + i) b)
    (m : Memory) : do_dma_transfer w1 m = do_dma_transfer w2 m := by
  unfold do_dma_transfer
  have key : ∀ address : Nat, ∀ s0 : Memory,
      (List.range 0xA0).foldlM
        (fun m i => do
          let b ← read m (address + i)
          w1 m (0xFE00 + i) b) s0 =
      (List.range 0xA0).foldlM
        (fun m i => do
          let b ← read m (address + i)
          w2 m (0xFE00 + i) b) s0 := by
    intro address s0
    apply foldlM_option_congr
    intro s i hi
    have hi' : i < 0xA0 := List.mem_range.mp hi
    simp only [h s i _ hi']
  simp only [key]

theorem write_body_congr (w1 w2 : Memory → Nat → Nat → Option Memory)
    (h : ∀ (s : Memory) (i b : Nat), i < 0xA0 → w1 s (0xFE00 + i) b = w2 s (0xFE00 + i) b)
    (m : Memory) (a d : Nat) : write_body w1 m a d = write_body w2 m a d := by
  have hz : ∀ x y, write_zero_page w1 m x y = write_zero_page w2 m x y := by
    intro x y
    simp only [write_zero_page, do_dma_transfer_congr w1 w2 h]
  simp only [write_body, hz]

/-- A `write` to a sprite-table address does not call `write` again. -/
theorem write_fuel_oam (n : Nat) (s : Memory) (i b : Nat) (hi : i < 0x100) :
    write_fuel (n + 1) s (0xFE00 + i) b =
      (vec_set s.OAM i (b % 0x100)).map fun v => { s with OAM := v } := by
  show write_body (write_fuel n) s (0xFE00 + i) b = _
  rw [write_body_oam _ _ _ _ (by omega) (by omega)]
  have e : 0xFE00 + i - 0xFE00 = i := by omega
  rw [e]

/-- The call depth `write` is run with is enough: with any larger depth the
result is the same. -/
theorem write_fuel_stable (n : Nat) (m : Memory) (a d : Nat) :
    write_fuel (n + 2) m a d = write m a d := by
  show write_body (write_fuel (n + 1)) m a d = write_body (write_fuel 1) m a d
  apply write_body_congr
  intro s i b hi
  rw [write_fuel_oam n s i b (by omega), write_fuel_oam 0 s i b (by omega)]

/-! ## `write` by region, at the top level -/

theorem write_rom (m : Memory) (a d : Nat) (h : a < 0x8000) : write m a d = some m :=
  write_body_rom _ m a d h

theorem write_vram (m : Memory) (a d : Nat) (h1 : 0x8000 ≤ a) (h2 : a < 0xA000) :
    write m a d = (vec_set m.VRAM (a - 0x8000) (d % 0x100)).map fun v => { m with VRAM := v } :=
  write_body_vram _ m a d h1 h2

theorem write_eram (m : Memory) (a d : Nat) (h1 : 0xA000 ≤ a) (h2 : a < 0xC000) :
    write m a d = (vec_set m.ERAM (a - 0xA000) (d % 0x100)).map fun v => { m with ERAM := v } :=
  write_body_eram _ m a d h1 h2

theorem write_wram (m : Memory) (a d : Nat) (h1 : 0xC000 ≤ a) (h2 : a < 0xFE00) :
    write m a d = (vec_set m.WRAM (a % 0x2000) (d % 0x100)).map fun v => { m with WRAM := v } :=
  write_body_wram _ m a d h1 h2

theorem write_oam (m : Memory) (a d : Nat) (h1 : 0xFE00 ≤ a) (h2 : a < 0xFF00) :
    write m a d = (vec_set m.OAM (a - 0xFE00) (d % 0x100)).map fun v => { m with OAM := v } :=
  write_body_oam _ m a d h1 h2

theorem write_page_plain (m : Memory) (a d : Nat) (h1 : 0xFF00 ≤ a) (h2 : a < 0x10000)
    (h3 : a ≠ 0xFF46) :
    write m a d =
      (vec_set m.ZRAM (a - 0xFF00)
        (if a = 0xFF00 then (d % 0x100) &&& 0x30
         else if a = 0xFF04 ∨ a = 0xFF44 then 0 else d % 0x100)).map
        fun z => { m with ZRAM := z } := by
  show write_body (write_fuel 1) m a d = _
  rw [write_body_page _ _ _ _ h1 h2, write_zero_page_plain _ _ _ _ h1 h2 h3, Nat.mod_mod]

theorem write_dma_unfold (m : Memory) (d : Nat) :
    write m 0xFF46 d =
      (vec_set m.ZRAM 0x46 (d % 0x100)).bind fun z =>
        do_dma_transfer (write_fuel 1) { m with ZRAM := z } := by
  show write_body (write_fuel 1) m 0xFF46 d = _
  rw [write_body_page _ _ _ _ (by omega) (by omega), write_zero_page_dma, Nat.mod_mod]

/-! ## Reads of a well-formed state -/

/-- Above the cartridge every read of a state with the constructor's region
sizes returns a byte. -/
theorem read_some (m : Memory) (hs : m.Sized) (a : Nat) (h1 : 0x8000 ≤ a) (h2 : a < 0x10000) :
    ∃ b, read m a = some b := by
  obtain ⟨hv, he, hw, ho, hz⟩ := hs
  by_cases c2 : a < 0xA000
  · rw [read_vram _ _ h1 c2]; exact vec_get_isSome (by omega)
  by_cases c3 : a < 0xC000
  · rw [read_eram _ _ (by omega) c3]; exact vec_get_isSome (by omega)
  by_cases c4 : a < 0xFE00
  · rw [read_wram _ _ (by omega) c4]; exact vec_get_isSome (by omega)
  by_cases c5 : a < 0xFF00
  · rw [read_oam _ _ (by omega) c5]; exact vec_get_isSome (by omega)
  rw [read_page _ _ (by omega) h2]
  by_cases c6 : a = 0xFF00
  · rw [if_pos c6]
    obtain ⟨r, hr⟩ : ∃ r, vec_get m.ZRAM 0 = some r := vec_get_isSome (by omega)
    simp only [get_joypad_state, MemoryRegister.get, P1, hr, Option.bind_eq_bind,
      Option.some_bind]
    by_cases r1 : r = 0x10
    · exact ⟨_, by rw [if_pos r1]⟩
    by_cases r2 : r = 0x20
    · exact ⟨_, by rw [if_neg r1, if_pos r2]⟩
    · exact ⟨_, by rw [if_neg r1, if_neg r2]⟩
  · rw [if_neg c6]; exact vec_get_isSome (by omega)

/-- Whatever `read` returns from a state of bytes is a byte. -/
theorem read_byte (m : Memory) (hb : m.Bytes) (a b : Nat) (h : read m a = some b) :
    b < 0x100 := by
  obtain ⟨hrom, hv, he, hw, ho, hz, hj1, hj2⟩ := hb
  have ha : a % 0x10000 < 0x10000 := Nat.mod_lt _ (by omega)
  have e : read m a = read m (a % 0x10000) := by
    simp only [read, Nat.mod_mod]
  rw [e] at h
  generalize a % 0x10000 = x at h ha
  by_cases c1 : x < 0x8000
  · rw [read_rom _ _ c1] at h; exact vec_get_byte hrom h
  by_cases c2 : x < 0xA000
  · rw [read_vram _ _ (by omega) c2] at h; exact vec_get_byte hv h
  by_cases c3 : x < 0xC000
  · rw [read_eram _ _ (by omega) c3] at h; exact vec_get_byte he h
  by_cases c4 : x < 0xFE00
  · rw [read_wram _ _ (by omega) c4] at h; exact vec_get_byte hw h
  by_cases c5 : x < 0xFF00
  · rw [read_oam _ _ (by omega) c5] at h; exact vec_get_byte ho h
  rw [read_page _ _ (by omega) ha] at h
  by_cases c6 : x = 0xFF00
  · rw [if_pos c6] at h
    simp only [get_joypad_state, MemoryRegister.get, Option.bind_eq_bind,
      Option.bind_eq_some] at h
    obtain ⟨r, -, hr⟩ := h
    by_cases r1 : r = 0x10
    · rw [if_pos r1] at hr; cases hr; exact hj1
    by_cases r2 : r = 0x20
    · rw [if_neg r1, if_pos r2] at hr; cases hr; exact hj2
    · rw [if_neg r1, if_neg r2] at hr; cases hr; omega
  · rw [if_neg c6] at h; exact vec_get_byte hz h

/-! ## The DMA transfer -/

/-- The transfer fails when its first source byte cannot be read. -/
theorem do_dma_transfer_unreadable (w : Memory → Nat → Nat → Option Memory) (m : Memory)
    (v : Nat) (hd : vec_get m.ZRAM 0x46 = some v)
    (hr : read m ((v <<< 8) % 0x10000) = none) : do_dma_transfer w m = none := by
  have e : List.range 0xA0 = 0 :: List.map Nat.succ (List.range 0x9F) :=
    List.range_succ_eq_map 0x9F
  simp only [do_dma_transfer, MemoryRegister.get, DMA, hd, Option.bind_eq_bind,
    Option.some_bind, e, List.foldlM_cons, Nat.add_zero, hr, Option.none_bind]

/-- The DMA request, when the 160 source bytes `f 0 .. f 159` are readable and
do not depend on the sprite table: the DMA register holds the written byte, the
first 160 sprite-table bytes are the source bytes, and nothing else changes. -/
theorem write_dma_spec (m : Memory) (v : Nat) (hs : m.Sized) (hv : v < 0x100)
    (f : Nat → Nat) (hf : ∀ i, i < 0xA0 → f i < 0x100)
    (hsrc : ∀ o : List Nat, o.length = 0x100 → ∀ i, i < 0xA0 →
      read { m with ZRAM := m.ZRAM.set 0x46 v, OAM := o } (v * 0x100 + i) = some (f i)) :
    ∃ o', write m 0xFF46 v = some { m with ZRAM := m.ZRAM.set 0x46 v, OAM := o' } ∧
      o'.length = 0x100 ∧
      ∀ j, vec_get o' j = if j < 0xA0 then some (f j) else vec_get m.OAM j := by
  obtain ⟨-, -, -, ho, hz⟩ := hs
  have e1 : v % 0x100 = v := Nat.mod_eq_of_lt hv
  have e2 : (v <<< 8) % 0x10000 = v * 0x100 := by
    rw [Nat.shiftLeft_eq]; omega
  have hget : vec_get (m.ZRAM.set 0x46 v) 0x46 = some v := by
    rw [vec_get_set, if_pos rfl, if_pos (by omega)]
  obtain ⟨o', h1, h2, h3⟩ :=
    dma_loop_spec (write_fuel 1) (fun s i b hi => write_fuel_oam 0 s i b hi)
      { m with ZRAM := m.ZRAM.set 0x46 v } (v * 0x100) f (List.range 0xA0)
      (fun i hi => by have := List.mem_range.mp hi; omega)
      (fun i hi => hf i (List.mem_range.mp hi))
      (fun o ho i hi => hsrc o ho i (List.mem_range.mp hi))
      m.OAM ho
  refine ⟨o', ?_, h2, ?_⟩
  · rw [write_dma_unfold, e1, vec_set_lt _ (by omega)]
    simp only [Option.some_bind, do_dma_transfer, MemoryRegister.get, DMA, hget,
      Option.bind_eq_bind, e2]
    exact h1
  · intro j
    rw [h3 j]
    simp only [List.mem_range]

/-! ## The sample states are well formed -/

theorem vec_bytes_replicate (n b : Nat) (hb : b < 0x100) : vec_bytes (List.replicate n b) := by
  intro x hx
  rw [List.eq_of_mem_replicate hx]
  exact hb

theorem sample_sized : sample.Sized := by
  refine ⟨?_, ?_, ?_, ?_, ?_⟩ <;> exact List.length_replicate _ _

theorem sample_bytes : sample.Bytes := by
  refine ⟨?_, ?_, ?_, ?_, ?_, ?_, ?_, ?_⟩ <;>
    first
      | exact vec_bytes_replicate _ _ (by decide)
      | (show (_ : Nat) < _; decide)

theorem sample_idle_sized : sample_idle.Sized := sample_sized

/-! ## Loops that keep an invariant -/

theorem foldlM_option_inv {σ α : Type} (P : σ → Prop) (f : σ → α → Option σ) (l : List α)
    (hstep : ∀ s, P s → ∀ x ∈ l, ∃ s', f s x = some s' ∧ P s') (s : σ) (hs : P s) :
    ∃ s', l.foldlM f s = some s' ∧ P s' := by
  induction l generalizing s with
  | nil => exact ⟨s, rfl, hs⟩
  | cons x l ih =>
    obtain ⟨t, ht, hPt⟩ := hstep s hs x (List.mem_cons_self _ _)
    obtain ⟨u, hu, hPu⟩ := ih (fun s hs y hy => hstep s hs y (List.mem_cons_of_mem _ hy)) t hPt
    exact ⟨u, by rw [List.foldlM_cons, ht]; exact hu, hPu⟩

theorem foldlM_option_preserves {σ α : Type} (P : σ → Prop) (f : σ → α → Option σ)
    (l : List α) (hstep : ∀ s, P s → ∀ x ∈ l, ∀ s', f s x = some s' → P s') (s s' : σ)
    (hs : P s) (h : l.foldlM f s = some s') : P s' := by
  induction l generalizing s with
  | nil =>
    have e : some s = some s' := h
    cases e
    exact hs
  | cons x l ih =>
    rw [List.foldlM_cons] at h
    obtain ⟨t, ht, hu⟩ := Option.bind_eq_some.mp h
    exact ih (fun s hs y hy => hstep s hs y (List.mem_cons_of_mem _ hy)) t
      (hstep s hs x (List.mem_cons_self _ _) t ht) hu

/-- The DMA request succeeds whenever its source block can be read: always for
a source page at `0x80` or above, and for a cartridge page when the loaded
image covers the 160 source bytes.  It changes the DMA register and the first
160 bytes of the sprite table, and nothing else. -/
theorem write_dma_total (m : Memory) (v : Nat) (hs : m.Sized) (hv : v < 0x100)
    (hrom : v < 0x80 → v * 0x100 + 0xA0 ≤ m.CART_ROM.length) :
    ∃ o', write m 0xFF46 v = some { m with ZRAM := m.ZRAM.set 0x46 v, OAM := o' } ∧
      o'.length = 0x100 ∧ ∀ j, 0xA0 ≤ j → vec_get o' j = vec_get m.OAM j := by
  have hs' := hs
  obtain ⟨hlv, hle, hlw, ho, hz⟩ := hs'
  have e1 : v % 0x100 = v := Nat.mod_eq_of_lt hv
  have e2 : (v <<< 8) % 0x10000 = v * 0x100 := by
    rw [Nat.shiftLeft_eq]; omega
  have hget : vec_get (m.ZRAM.set 0x46 v) 0x46 = some v := by
    rw [vec_get_set, if_pos rfl, if_pos (by omega)]
  let m1 : Memory := { m with ZRAM := m.ZRAM.set 0x46 v }
  let P : Memory → Prop := fun s =>
    ∃ o, s = { m1 with OAM := o } ∧ o.length = 0x100 ∧
      ∀ j, 0xA0 ≤ j → vec_get o j = vec_get m.OAM j
  have hstep : ∀ s, P s → ∀ i ∈ List.range 0xA0,
      ∃ s', (do
        let b ← read s (v * 0x100 + i)
        write_fuel 1 s (0xFE00 + i) b) = some s' ∧ P s' := by
    rintro s ⟨o, rfl, hlo, hfar⟩ i hi
    have hi' : i < 0xA0 := List.mem_range.mp hi
    have hread : ∃ b, read { m1 with OAM := o } (v * 0x100 + i) = some b := by
      by_cases c : v < 0x80
      · rw [read_rom _ _ (by omega)]
        exact vec_get_isSome (by have := hrom c; show _ < m.CART_ROM.length; omega)
      · have hsz : Memory.Sized { m1 with OAM := o } :=
          ⟨hlv, hle, hlw, hlo, by show (m.ZRAM.set 0x46 v).length = 0x100; simpa using hz⟩
        exact read_some { m1 with OAM := o } hsz (v * 0x100 + i) (by omega) (by omega)
    obtain ⟨b, hb⟩ := hread
    refine ⟨{ m1 with OAM := o.set i (b % 0x100) }, ?_, o.set i (b % 0x100), rfl,
      by simpa using hlo, ?_⟩
    · rw [hb]
      simp only [Option.bind_eq_bind, Option.some_bind]
      rw [write_fuel_oam 0 _ i b (by omega)]
      show Option.map _ (vec_set o i (b % 0x100)) = _
      rw [vec_set_lt _ (by omega)]
      rfl
    · intro j hj
      rw [vec_get_set, if_neg (by omega)]
      exact hfar j hj
  obtain ⟨s', hfold, o', rfl, hlo', hfar'⟩ :=
    foldlM_option_inv P _ (List.range 0xA0) hstep m1 ⟨m.OAM, rfl, ho, fun _ _ => rfl⟩
  refine ⟨o', ?_, hlo', hfar'⟩
  rw [write_dma_unfold, e1, vec_set_lt _ (by omega)]
  simp only [Option.some_bind, do_dma_transfer, MemoryRegister.get, DMA, hget,
    Option.bind_eq_bind, e2]
  exact hfold

theorem vec_get_replicate (n b i : Nat) (h : i < n) :
    vec_get (List.replicate n b) i = some b := by
  unfold vec_get
  rw [List.getElem?_replicate, if_pos h]

/-- The joypad register of the sample states holds the select pattern `0x00`. -/
theorem sample_idle_select : vec_get sample_idle.ZRAM 0x00 = some 0x00 :=
  vec_get_replicate 0x100 0 0 (by decide)

/-! ## `reset` -/

theorem MemoryRegister_set_lt (s : Memory) (reg value : Nat) (h : reg < s.ZRAM.length) :
    MemoryRegister.set s reg value =
      some { s with ZRAM := s.ZRAM.set reg (value % 0x100) } := by
  unfold MemoryRegister.set
  rw [vec_set_lt _ h]
  rfl

/-- The register stores of `reset`, run over a zero page of 256 bytes: every
store is in range, and the zero page ends as the stores applied in order. -/
theorem reset_stores (l : List (Nat × Nat)) (hl : ∀ rv ∈ l, rv.1 < 0x100) (s : Memory)
    (hz : s.ZRAM.length = 0x100) :
    l.foldlM (fun s rv => MemoryRegister.set s rv.1 rv.2) s =
      some { s with ZRAM := l.foldl (fun z rv => z.set rv.1 (rv.2 % 0x100)) s.ZRAM } := by
  induction l generalizing s with
  | nil => rfl
  | cons rv l ih =>
    have h1 : rv.1 < s.ZRAM.length := by
      have := hl rv (List.mem_cons_self _ _); omega
    simp only [List.foldlM_cons, List.foldl_cons]
    rw [MemoryRegister_set_lt _ _ _ h1]
    simp only [Option.bind_eq_bind, Option.some_bind]
    rw [ih (fun x hx => hl x (List.mem_cons_of_mem _ hx)) _ (by simpa using hz)]

theorem reset_defaults_in_range : ∀ rv ∈ reset_defaults, rv.1 < 0x100 := by
  decide

/-- The zero page after the stores of `reset`, read at index `i`. -/
theorem reset_zram_get (i : Nat) (hi : i < 0x100) :
    vec_get
      (reset_defaults.foldl (fun z rv => z.set rv.1 (rv.2 % 0x100)) (List.replicate 0x100 0)) i =
      some (if i = 0x40 then 0x83 else if i = 0x47 then 0xFC
        else if i = 0x48 ∨ i = 0x49 then 0xFF else 0x00) := by
  have hcases : i = 0x40 ∨ i = 0x47 ∨ i = 0x48 ∨ i = 0x49 ∨
      (0x40 ≠ i ∧ 0x47 ≠ i ∧ 0x48 ≠ i ∧ 0x49 ≠ i ∧
        i ≠ 0x40 ∧ i ≠ 0x47 ∧ i ≠ 0x48 ∧ i ≠ 0x49) := by
    omega
  simp only [reset_defaults, List.foldl_cons, List.foldl_nil, P1, DIV, TIMA, TMA, TAC, LCDC,
    SCY, SCX, LYC, BGP, OBP0, OBP1, WY, WX, IF, IE, vec_get_set, List.length_set,
    List.length_replicate, vec_get_replicate 0x100 0 i hi]
  rcases hcases with rfl | rfl | rfl | rfl | ⟨h1, h2, h3, h4, h5, h6, h7, h8⟩
  · simp
  · simp
  · simp
  · simp
  · simp [h1, h2, h3, h4, h5, h6, h7, h8]

theorem reset_zram_length :
    (reset_defaults.foldl (fun z rv => z.set rv.1 (rv.2 % 0x100))
      (List.replicate 0x100 0)).length = 0x100 := by
  simp only [reset_defaults, List.foldl_cons, List.foldl_nil, List.length_set,
    List.length_replicate]

/-- The state `reset` returns, from a state with the constructor's sizes. -/
theorem reset_eq (m : Memory) (hs : m.Sized) :
    reset m = some
      { CART_ROM := m.CART_ROM
        VRAM := List.replicate 0x2000 0
        ERAM := List.replicate 0x2000 0
        WRAM := List.replicate 0x2000 0
        OAM := List.replicate 0x100 0
        ZRAM := reset_defaults.foldl (fun z rv => z.set rv.1 (rv.2 % 0x100))
          (List.replicate 0x100 0)
        joypad_buttons := 0xF
        joypad_arrows := 0xF } := by
  obtain ⟨hlv, hle, hlw, hlo, hlz⟩ := hs
  have hfill : reset_fill m =
      { CART_ROM := m.CART_ROM
        VRAM := List.replicate 0x2000 0
        ERAM := List.replicate 0x2000 0
        WRAM := List.replicate 0x2000 0
        OAM := List.replicate 0x100 0
        ZRAM := List.replicate 0x100 0
        joypad_buttons := m.joypad_buttons
        joypad_arrows := m.joypad_arrows } := by
    simp only [reset_fill, vec_fill, hlv, hle, hlw, hlo, hlz]
  unfold reset
  rw [hfill, reset_stores _ reset_defaults_in_range _ (List.length_replicate _ _)]
  rfl

/-! ## The invariants are kept

The constructor establishes `Memory.Sized` and `Memory.Bytes`, and `reset`,
`load_image` (for an image of bytes) and `write` keep them, so the hypotheses
of the claims hold in every state the program reaches. -/

theorem vec_set_some {v v' : List Nat} {i b : Nat} (h : vec_set v i b = some v') :
    i < v.length ∧ v' = v.set i b := by
  unfold vec_set at h
  by_cases c : i < v.length
  · rw [if_pos c] at h
    exact ⟨c, (Option.some.inj h).symm⟩
  · rw [if_neg c] at h
    cases h

theorem vec_bytes_stores (l : List (Nat × Nat)) (z : List Nat) (hz : vec_bytes z) :
    vec_bytes (l.foldl (fun z rv => z.set rv.1 (rv.2 % 0x100)) z) := by
  induction l generalizing z with
  | nil => exact hz
  | cons rv l ih =>
    exact ih _ (vec_bytes_set hz _ (Nat.mod_lt _ (by decide)))

theorem reset_keeps (m m' : Memory) (hs : m.Sized) (h : reset m = some m') :
    m'.Sized ∧ (vec_bytes m.CART_ROM → m'.Bytes) ∧ m'.CART_ROM = m.CART_ROM := by
  rw [reset_eq m hs] at h
  cases h
  refine ⟨⟨List.length_replicate _ _, List.length_replicate _ _, List.length_replicate _ _,
    List.length_replicate _ _, reset_zram_length⟩, ?_, rfl⟩
  intro hrom
  exact ⟨hrom, vec_bytes_replicate _ _ (by decide), vec_bytes_replicate _ _ (by decide),
    vec_bytes_replicate _ _ (by decide), vec_bytes_replicate _ _ (by decide),
    vec_bytes_stores _ _ (vec_bytes_replicate _ _ (by decide)),
    (by decide : (0xF : Nat) < 0x100), (by decide : (0xF : Nat) < 0x100)⟩

/-- The constructor returns a state with the stated sizes and of bytes. -/
theorem new_well_formed : ∃ m, Memory.new = some m ∧ m.Sized ∧ m.Bytes := by
  have hs : Memory.Sized
      { CART_ROM := []
        VRAM := List.replicate 0x2000 0
        ERAM := List.replicate 0x2000 0
        WRAM := List.replicate 0x2000 0
        OAM := List.replicate 0x0100 0
        ZRAM := List.replicate 0x0100 0
        joypad_buttons := 0
        joypad_arrows := 0 } :=
    ⟨List.length_replicate _ _, List.length_replicate _ _, List.length_replicate _ _,
      List.length_replicate _ _, List.length_replicate _ _⟩
  have hm' := reset_eq _ hs
  obtain ⟨h1, h2, -⟩ := reset_keeps _ _ hs hm'
  exact ⟨_, hm', h1, h2 (fun x hx => nomatch hx)⟩

theorem load_image_keeps (m : Memory) (buffer : List Nat) (hb : vec_bytes buffer) :
    (m.Sized → (load_image m buffer).Sized) ∧ (m.Bytes → (load_image m buffer).Bytes) :=
  ⟨fun h => h, fun ⟨_, h2, h3, h4, h5, h6, h7, h8⟩ => ⟨hb, h2, h3, h4, h5, h6, h7, h8⟩⟩

/-- What a store into one region keeps. -/
theorem store_keeps (m : Memory) (b : Nat) (hb : b < 0x100) :
    (∀ i v', vec_set m.VRAM i b = some v' →
      (m.Sized → Memory.Sized { m with VRAM := v' }) ∧
      (m.Bytes → Memory.Bytes { m with VRAM := v' })) ∧
    (∀ i v', vec_set m.ERAM i b = some v' →
      (m.Sized → Memory.Sized { m with ERAM := v' }) ∧
      (m.Bytes → Memory.Bytes { m with ERAM := v' })) ∧
    (∀ i v', vec_set m.WRAM i b = some v' →
      (m.Sized → Memory.Sized { m with WRAM := v' }) ∧
      (m.Bytes → Memory.Bytes { m with WRAM := v' })) ∧
    (∀ i v', vec_set m.OAM i b = some v' →
      (m.Sized → Memory.Sized { m with OAM := v' }) ∧
      (m.Bytes → Memory.Bytes { m with OAM := v' })) ∧
    (∀ i v', vec_set m.ZRAM i b = some v' →
      (m.Sized → Memory.Sized { m with ZRAM := v' }) ∧
      (m.Bytes → Memory.Bytes { m with ZRAM := v' })) := by
  refine ⟨?_, ?_, ?_, ?_, ?_⟩ <;> intro i v' h <;> obtain ⟨-, rfl⟩ := vec_set_some h <;>
    refine ⟨fun ⟨h1, h2, h3, h4, h5⟩ => ?_, fun ⟨h1, h2, h3, h4, h5, h6, h7, h8⟩ => ?_⟩
  · exact ⟨by simpa using h1, h2, h3, h4, h5⟩
  · exact ⟨h1, vec_bytes_set h2 _ hb, h3, h4, h5, h6, h7, h8⟩
  · exact ⟨h1, by simpa using h2, h3, h4, h5⟩
  · exact ⟨h1, h2, vec_bytes_set h3 _ hb, h4, h5, h6, h7, h8⟩
  · exact ⟨h1, h2, by simpa using h3, h4, h5⟩
  · exact ⟨h1, h2, h3, vec_bytes_set h4 _ hb, h5, h6, h7, h8⟩
  · exact ⟨h1, h2, h3, by simpa using h4, h5⟩
  · exact ⟨h1, h2, h3, h4, vec_bytes_set h5 _ hb, h6, h7, h8⟩
  · exact ⟨h1, h2, h3, h4, by simpa using h5⟩
  · exact ⟨h1, h2, h3, h4, h5, vec_bytes_set h6 _ hb, h7, h8⟩

/-- The address argument of `write` is converted to 16 bits. -/
theorem write_mod (m : Memory) (a d : Nat) : write m a d = write m (a % 0x10000) d := by
  show write_body _ m a d = write_body _ m (a % 0x10000) d
  simp only [write_body, Nat.mod_mod]

/-- The DMA transfer keeps the invariants. -/
theorem do_dma_transfer_keeps (m m' : Memory) (h : do_dma_transfer (write_fuel 1) m = some m') :
    (m.Sized → m'.Sized) ∧ (m.Bytes → m'.Bytes) := by
  unfold do_dma_transfer at h
  obtain ⟨dma, -, hfold⟩ := Option.bind_eq_some.mp h
  refine foldlM_option_preserves (fun s => (m.Sized → s.Sized) ∧ (m.Bytes → s.Bytes)) _
    (List.range 0xA0) ?_ m m' ⟨fun x => x, fun x => x⟩ hfold
  intro s hP i hi s' hstep
  have hi' : i < 0xA0 := List.mem_range.mp hi
  obtain ⟨b, -, hw⟩ := Option.bind_eq_some.mp hstep
  rw [write_fuel_oam 0 s i b (by omega)] at hw
  obtain ⟨v', hv', rfl⟩ := Option.map_eq_some'.mp hw
  have hk := (store_keeps s (b % 0x100) (Nat.mod_lt _ (by decide))).2.2.2.1 i v' hv'
  exact ⟨fun x => hk.1 (hP.1 x), fun x => hk.2 (hP.2 x)⟩

/-- Every `write` keeps the invariants. -/
theorem write_keeps (m : Memory) (a d : Nat) (m' : Memory) (h : write m a d = some m') :
    (m.Sized → m'.Sized) ∧ (m.Bytes → m'.Bytes) := by
  rw [write_mod] at h
  have ha : a % 0x10000 < 0x10000 := Nat.mod_lt _ (by decide)
  generalize a % 0x10000 = x at h ha
  have hd : d % 0x100 < 0x100 := Nat.mod_lt _ (by decide)
  by_cases c1 : x < 0x8000
  · rw [write_rom _ _ _ c1] at h
    cases h
    exact ⟨fun x => x, fun x => x⟩
  by_cases c2 : x < 0xA000
  · rw [write_vram _ _ _ (by omega) c2] at h
    obtain ⟨v', hv', rfl⟩ := Option.map_eq_some'.mp h
    exact (store_keeps m _ hd).1 _ v' hv'
  by_cases c3 : x < 0xC000
  · rw [write_eram _ _ _ (by omega) c3] at h
    obtain ⟨v', hv', rfl⟩ := Option.map_eq_some'.mp h
    exact (store_keeps m _ hd).2.1 _ v' hv'
  by_cases c4 : x < 0xFE00
  · rw [write_wram _ _ _ (by omega) c4] at h
    obtain ⟨v', hv', rfl⟩ := Option.map_eq_some'.mp h
    exact (store_keeps m _ hd).2.2.1 _ v' hv'
  by_cases c5 : x < 0xFF00
  · rw [write_oam _ _ _ (by omega) c5] at h
    obtain ⟨v', hv', rfl⟩ := Option.map_eq_some'.mp h
    exact (store_keeps m _ hd).2.2.2.1 _ v' hv'
  by_cases c6 : x = 0xFF46
  · subst c6
    rw [write_dma_unfold] at h
    obtain ⟨z, hz, hdma⟩ := Option.bind_eq_some.mp h
    have h1 := (store_keeps m _ hd).2.2.2.2 _ z hz
    have h2 := do_dma_transfer_keeps _ m' hdma
    exact ⟨fun x => h2.1 (h1.1 x), fun x => h2.2 (h1.2 x)⟩
  · rw [write_page_plain _ _ _ (by omega) ha c6] at h
    obtain ⟨v', hv', rfl⟩ := Option.map_eq_some'.mp h
    have hb : (if x = 0xFF00 then (d % 0x100) &&& 0x30
        else if x = 0xFF04 ∨ x = 0xFF44 then 0 else d % 0x100) < 0x100 := by
      by_cases e0 : x = 0xFF00
      · rw [if_pos e0]
        exact Nat.lt_of_le_of_lt Nat.and_le_right (by decide)
      · rw [if_neg e0]
        by_cases e1 : x = 0xFF04 ∨ x = 0xFF44
        · rw [if_pos e1]; decide
        · rw [if_neg e1]; exact hd
    exact (store_keeps m _ hb).2.2.2.2 _ v' hv'

/-! ## The instrumented decoder agrees with `read` -/

theorem read_access_rom (a : Nat) (h : a < 0x8000) : read_access a = .cart a := by
  have e : a % 0x10000 = a := Nat.mod_eq_of_lt (by omega)
  simp only [read_access, and_F000, e]
  by_cases c : a < 0x4000
  · rw [if_pos (by omega)]
  · rw [if_neg (by omega), if_pos (by omega)]

theorem read_access_vram (a : Nat) (h1 : 0x8000 ≤ a) (h2 : a < 0xA000) :
    read_access a = .vram (a - 0x8000) := by
  have e : a % 0x10000 = a := Nat.mod_eq_of_lt (by omega)
  have e2 : a % 0x2000 = a - 0x8000 := by omega
  simp only [read_access, and_F000, and_1FFF, e, e2]
  rw [if_neg (by omega), if_neg (by omega), if_pos (by omega)]

theorem read_access_eram (a : Nat) (h1 : 0xA000 ≤ a) (h2 : a < 0xC000) :
    read_access a = .eram (a - 0xA000) := by
  have e : a % 0x10000 = a := Nat.mod_eq_of_lt (by omega)
  have e2 : a % 0x2000 = a - 0xA000 := by omega
  simp only [read_access, and_F000, and_1FFF, e, e2]
  rw [if_neg (by omega), if_neg (by omega), if_neg (by omega), if_pos (by omega)]

theorem read_access_wram (a : Nat) (h1 : 0xC000 ≤ a) (h2 : a < 0xFE00) :
    read_access a = .wram (a % 0x2000) := by
  have e : a % 0x10000 = a := Nat.mod_eq_of_lt (by omega)
  simp only [read_access, and_F000, and_0F00, and_1FFF, e]
  rw [if_neg (by omega), if_neg (by omega), if_neg (by omega), if_neg (by omega)]
  by_cases c : a < 0xF000
  · rw [if_pos (by omega)]
  · rw [if_neg (by omega), if_pos (by omega), if_pos (by omega)]

theorem read_access_oam (a : Nat) (h1 : 0xFE00 ≤ a) (h2 : a < 0xFF00) :
    read_access a = .oam (a - 0xFE00) := by
  have e : a % 0x10000 = a := Nat.mod_eq_of_lt (by omega)
  have e2 : a % 0x100 = a - 0xFE00 := by omega
  simp only [read_access, and_F000, and_0F00, and_00FF, e, e2]
  rw [if_neg (by omega), if_neg (by omega), if_neg (by omega), if_neg (by omega),
    if_neg (by omega), if_pos (by omega), if_neg (by omega), if_pos (by omega)]

theorem read_access_page (a : Nat) (h1 : 0xFF00 ≤ a) (h2 : a < 0x10000) :
    read_access a = if a = 0xFF00 then .joypad else .zram (a - 0xFF00) := by
  have e : a % 0x10000 = a := Nat.mod_eq_of_lt (by omega)
  have e2 : a % 0x100 = a - 0xFF00 := by omega
  simp only [read_access, and_F000, and_0F00, and_00FF, e, e2]
  rw [if_neg (by omega), if_neg (by omega), if_neg (by omega), if_neg (by omega),
    if_neg (by omega), if_pos (by omega), if_neg (by omega), if_neg (by omega),
    if_pos (by omega)]

/-- The byte `read` returns is the load `read_access` names. -/
theorem read_eq_read_at (m : Memory) (a : Nat) (h : a < 0x10000) :
    read m a = read_at m (read_access a) := by
  by_cases c1 : a < 0x8000
  · rw [read_rom _ _ c1, read_access_rom _ c1]; rfl
  by_cases c2 : a < 0xA000
  · rw [read_vram _ _ (by omega) c2, read_access_vram _ (by omega) c2]; rfl
  by_cases c3 : a < 0xC000
  · rw [read_eram _ _ (by omega) c3, read_access_eram _ (by omega) c3]; rfl
  by_cases c4 : a < 0xFE00
  · rw [read_wram _ _ (by omega) c4, read_access_wram _ (by omega) c4]; rfl
  by_cases c5 : a < 0xFF00
  · rw [read_oam _ _ (by omega) c5, read_access_oam _ (by omega) c5]; rfl
  rw [read_page _ _ (by omega) h, read_access_page _ (by omega) h]
  by_cases c6 : a = 0xFF00
  · rw [if_pos c6, if_pos c6]; rfl
  · rw [if_neg c6, if_neg c6]; rfl

/-! ## Frame lemmas for stores -/

theorem vec_get_some_lt {v : List Nat} {i b : Nat} (h : vec_get v i = some b) :
    i < v.length := by
  unfold vec_get at h
  exact (List.getElem?_eq_some.mp h).1

theorem vec_get_set_ne (v : List Nat) (i j b : Nat) (h : i ≠ j) :
    vec_get (v.set i b) j = vec_get v j := by
  rw [vec_get_set, if_neg h]

/-- A zero-page read after a store to another zero-page byte than the joypad
register. -/
theorem read_page_set (m : Memory) (j v a : Nat) (hz : m.ZRAM.length = 0x100)
    (hj0 : j ≠ 0) (h1 : 0xFF00 ≤ a) (h2 : a < 0x10000) :
    read { m with ZRAM := m.ZRAM.set j v } a =
      if a = 0xFF00 + j then some v else read m a := by
  rw [read_page _ _ h1 h2, read_page _ _ h1 h2]
  by_cases c0 : a = 0xFF00
  · rw [if_pos c0, if_pos c0, if_neg (by omega)]
    simp only [get_joypad_state, MemoryRegister.get, P1]
    rw [vec_get_set_ne _ _ _ _ hj0]
  · rw [if_neg c0, if_neg c0]
    show vec_get (m.ZRAM.set j v) (a - 0xFF00) = _
    by_cases c1 : a = 0xFF00 + j
    · rw [if_pos c1, vec_get_set, if_pos (by omega), if_pos (by omega)]
    · rw [if_neg c1, vec_get_set_ne _ _ _ _ (by omega)]

/-- The DMA request with source page `0xFF`: the zero page is copied as it is
after the register store, so sprite-table byte `0x46` receives the value just
written. -/
theorem write_dma_zero_page (m : Memory) (hs : m.Sized) (hb : m.Bytes) :
    ∃ m', write m 0xFF46 0xFF = some m' ∧
      ∀ i, i < 160 →
        read m' (0xFE00 + i) = if i = 0x46 then some 0xFF else read m (0xFF00 + i) := by
  have hs' := hs
  obtain ⟨-, -, -, -, hlz⟩ := hs'
  have hsrc1 : ∀ i, i < 0xA0 →
      read { m with ZRAM := m.ZRAM.set 0x46 0xFF } (0xFF * 0x100 + i) =
        if i = 0x46 then some 0xFF else read m (0xFF00 + i) := by
    intro i hi
    have e : 0xFF * 0x100 + i = 0xFF00 + i := by omega
    rw [e, read_page_set m 0x46 0xFF _ hlz (by decide) (by omega) (by omega)]
    by_cases c : i = 0x46
    · rw [if_pos c, if_pos (by omega)]
    · rw [if_neg c, if_neg (by omega)]
  have hsome : ∀ i, i < 0xA0 → ∃ b, b < 0x100 ∧
      (if i = 0x46 then some 0xFF else read m (0xFF00 + i)) = some b := by
    intro i hi
    by_cases c : i = 0x46
    · rw [if_pos c]; exact ⟨0xFF, by decide, rfl⟩
    · rw [if_neg c]
      obtain ⟨b, hb'⟩ := read_some m hs (0xFF00 + i) (by omega) (by omega)
      exact ⟨b, read_byte m hb _ _ hb', hb'⟩
  obtain ⟨o', hw, -, hget⟩ :=
    write_dma_spec m 0xFF hs (by decide)
      (fun i => (if i = 0x46 then some 0xFF else read m (0xFF00 + i)).getD 0)
      (fun i hi => by
        obtain ⟨b, hb1, hb2⟩ := hsome i hi
        show (if i = 0x46 then some 0xFF else read m (0xFF00 + i)).getD 0 < 0x100
        rw [hb2, Option.getD_some]; exact hb1)
      (fun o _ i hi => by
        obtain ⟨b, hb1, hb2⟩ := hsome i hi
        have hc : read { m with ZRAM := m.ZRAM.set 0x46 0xFF, OAM := o } (0xFF * 0x100 + i) =
            read { m with ZRAM := m.ZRAM.set 0x46 0xFF } (0xFF * 0x100 + i) := by
          apply read_congr _ _ _ (by omega)
          · intro _; rfl
          · intro _ _; rfl
          · intro _ _; rfl
          · intro _ _; rfl
          · intro h _; omega
          · intro _; rfl
          · intro _; exact ⟨rfl, rfl⟩
        rw [hc, hsrc1 i hi]
        show _ = some ((if i = 0x46 then some 0xFF else read m (0xFF00 + i)).getD 0)
        rw [hb2, Option.getD_some])
  refine ⟨_, hw, ?_⟩
  intro i hi
  obtain ⟨b, hb1, hb2⟩ := hsome i hi
  rw [read_oam _ _ (by omega) (by omega)]
  have e : 0xFE00 + i - 0xFE00 = i := by omega
  show vec_get o' (0xFE00 + i - 0xFE00) = _
  rw [e, hget i, if_pos hi]
  show some ((if i = 0x46 then some 0xFF else read m (0xFF00 + i)).getD 0) = _
  rw [hb2, Option.getD_some]

/-- A store into one region leaves the reads of every other address alone:
the five cases of a `write` that is not a DMA request. -/
theorem read_after_store (m : Memory) (b : Nat) (hb : b < 0x10000) (i v : Nat) :
    ((b < 0x8000 ∨ 0xA000 ≤ b ∨ b - 0x8000 ≠ i) →
      read { m with VRAM := m.VRAM.set i v } b = read m b) ∧
    ((b < 0xA000 ∨ 0xC000 ≤ b ∨ b - 0xA000 ≠ i) →
      read { m with ERAM := m.ERAM.set i v } b = read m b) ∧
    ((b < 0xC000 ∨ 0xFE00 ≤ b ∨ b % 0x2000 ≠ i) →
      read { m with WRAM := m.WRAM.set i v } b = read m b) ∧
    ((b < 0xFE00 ∨ 0xFF00 ≤ b ∨ b - 0xFE00 ≠ i) →
      read { m with OAM := m.OAM.set i v } b = read m b) ∧
    ((b < 0xFF00 ∨ (b - 0xFF00 ≠ i ∧ (b = 0xFF00 → i ≠ 0))) →
      read { m with ZRAM := m.ZRAM.set i v } b = read m b) := by
  refine ⟨?_, ?_, ?_, ?_, ?_⟩ <;> intro h
  · by_cases c : 0x8000 ≤ b ∧ b < 0xA000
    · rw [read_vram _ _ c.1 c.2, read_vram _ _ c.1 c.2]
      exact vec_get_set_ne _ _ _ _ (by omega)
    · apply read_congr _ _ _ hb
      · intro _; rfl
      · intro h1 h2; exact absurd ⟨h1, h2⟩ c
      · intro _ _; rfl
      · intro _ _; rfl
      · intro _ _; rfl
      · intro _; rfl
      · intro _; exact ⟨rfl, rfl⟩
  · by_cases c : 0xA000 ≤ b ∧ b < 0xC000
    · rw [read_eram _ _ c.1 c.2, read_eram _ _ c.1 c.2]
      exact vec_get_set_ne _ _ _ _ (by omega)
    · apply read_congr _ _ _ hb
      · intro _; rfl
      · intro _ _; rfl
      · intro h1 h2; exact absurd ⟨h1, h2⟩ c
      · intro _ _; rfl
      · intro _ _; rfl
      · intro _; rfl
      · intro _; exact ⟨rfl, rfl⟩
  · by_cases c : 0xC000 ≤ b ∧ b < 0xFE00
    · rw [read_wram _ _ c.1 c.2, read_wram _ _ c.1 c.2]
      exact vec_get_set_ne _ _ _ _ (by omega)
    · apply read_congr _ _ _ hb
      · intro _; rfl
      · intro _ _; rfl
      · intro _ _; rfl
      · intro h1 h2; exact absurd ⟨h1, h2⟩ c
      · intro _ _; rfl
      · intro _; rfl
      · intro _; exact ⟨rfl, rfl⟩
  · by_cases c : 0xFE00 ≤ b ∧ b < 0xFF00
    · rw [read_oam _ _ c.1 c.2, read_oam _ _ c.1 c.2]
      exact vec_get_set_ne _ _ _ _ (by omega)
    · apply read_congr _ _ _ hb
      · intro _; rfl
      · intro _ _; rfl
      · intro _ _; rfl
      · intro _ _; rfl
      · intro h1 h2; exact absurd ⟨h1, h2⟩ c
      · intro _; rfl
      · intro _; exact ⟨rfl, rfl⟩
  · by_cases c : 0xFF00 ≤ b
    · rw [read_page _ _ c hb, read_page _ _ c hb]
      by_cases c0 : b = 0xFF00
      · rw [if_pos c0, if_pos c0]
        simp only [get_joypad_state, MemoryRegister.get, P1]
        rw [vec_get_set_ne _ _ _ _ (by omega)]
      · rw [if_neg c0, if_neg c0]
        exact vec_get_set_ne _ _ _ _ (by omega)
    · apply read_congr _ _ _ hb
      · intro _; rfl
      · intro _ _; rfl
      · intro _ _; rfl
      · intro _ _; rfl
      · intro _ _; rfl
      · intro h1; exact absurd h1 c
      · intro _; exact ⟨rfl, rfl⟩

/-! ## Display arithmetic -/

theorem to_signed_byte_eq (t : Nat) (ht : t < 0x100) :
    to_signed_byte t = if t < 0x80 then (t : Int) else (t : Int) - 0x100 := by
  unfold to_signed_byte
  rw [Nat.mod_eq_of_lt ht]

theorem bg_tile_offset_unsigned (t : Nat) (ht : t < 0x100) :
    bg_tile_offset true t = 0x8000 + 16 * t := by
  simp only [bg_tile_offset, Nat.mod_eq_of_lt ht, if_true]
  omega

theorem bg_tile_offset_signed (t : Nat) (ht : t < 0x100) :
    ((bg_tile_offset false t : Nat) : Int) = 0x9000 + 16 * to_signed_byte t := by
  have hs := to_signed_byte_eq t ht
  simp only [bg_tile_offset, Nat.mod_eq_of_lt ht, Bool.false_eq_true, if_false]
  by_cases c : t < 0x80
  · rw [if_pos c] at hs
    rw [hs]
    omega
  · rw [if_neg c] at hs
    rw [hs]
    omega

/-- Every entry of the grey table is a grey, not the error colour. -/
theorem shade_lookup (i : Nat) (h : i < 4) :
    ∃ c, shades_of_gray[i]? = some c ∧ c ≠ error_color ∧ c ≠ Color.Transparent := by
  have hc : i = 0 ∨ i = 1 ∨ i = 2 ∨ i = 3 := by omega
  rcases hc with rfl | rfl | rfl | rfl
  · exact ⟨Color.rgb 255 255 255, rfl, by decide, by decide⟩
  · exact ⟨Color.rgb 198 198 198, rfl, by decide, by decide⟩
  · exact ⟨Color.rgb 127 127 127, rfl, by decide, by decide⟩
  · exact ⟨Color.rgb 0 0 0, rfl, by decide, by decide⟩

theorem shade_index_lt (p k : Nat) : (p >>> k) &&& 3 < 4 :=
  Nat.lt_succ_of_le Nat.and_le_right

/-- The colour `get_pixel_color` returns, by colour code. -/
theorem get_pixel_color_eq (palette top bottom bit : Nat) (is_sprite : Bool)
    (hp : palette < 0x100) (ht : top < 0x100) (hb : bottom < 0x100) :
    get_pixel_color palette top bottom bit is_sprite =
      if is_sprite = true ∧
          2 * (is_bit_set bottom bit).toNat + (is_bit_set top bit).toNat = 0 then
        some Color.Transparent
      else
        shades_of_gray[(palette >>> (2 * (2 * (is_bit_set bottom bit).toNat +
          (is_bit_set top bit).toNat))) &&& 3]? := by
  have e0 : (palette &&& 0x03) % 0x100 = (palette >>> 0) &&& 3 := by
    have := shade_index_lt palette 0
    rw [Nat.shiftRight_zero] at this ⊢
    omega
  have e1 : ((palette >>> 2) &&& 0x03) % 0x100 = (palette >>> 2) &&& 3 := by
    have := shade_index_lt palette 2
    omega
  have e2 : ((palette >>> 4) &&& 0x03) % 0x100 = (palette >>> 4) &&& 3 := by
    have := shade_index_lt palette 4
    omega
  have e3 : (palette >>> 6) % 0x100 = (palette >>> 6) &&& 3 := by
    rw [Nat.and_pow_two_sub_one_eq_mod _ 2, Nat.shiftRight_eq_div_pow]
    omega
  simp only [get_pixel_color, Nat.mod_eq_of_lt hp, Nat.mod_eq_of_lt ht, Nat.mod_eq_of_lt hb,
    e0, e1, e2, e3]
  cases is_bit_set top bit <;> cases is_bit_set bottom bit <;> cases is_sprite <;> rfl

/-! ## The sprite tile loop -/

/-- The loop of `render_sprite_tile` visits column 0 of row 0 first.  With the
priority flag set and no horizontal mirroring, when that pixel is on screen and
the background there is not white, the function returns at once and the sprite
image is left as it was. -/
theorem render_sprite_tile_returns_early (m : Memory) (bg_array : Image) (palette : Nat)
    (start_x start_y : Int) (tile_id flags : Nat) (sprites_array : Image)
    (high low : Nat) (color : Color)
    (hprio : is_bit_set flags BIT_7 = true) (hmirror : is_bit_set flags BIT_5 = false)
    (hhigh : read m ((tile_id % 0x100) * 16 + 0x8000 + 0 * 2 + 1) = some high)
    (hlow : read m ((tile_id % 0x100) * 16 + 0x8000 + 0 * 2) = some low)
    (hx : 0 ≤ start_x + 7 - ((0 : Nat) : Int) ∧ start_x + 7 - ((0 : Nat) : Int) < 160)
    (hy : 0 ≤ start_y + ((0 : Nat) : Int) ∧ start_y + ((0 : Nat) : Int) < 144)
    (hcolor : get_pixel_color palette low high 0 true = some color)
    (hbg : getPixel bg_array (start_x + 7 - ((0 : Nat) : Int)).toNat
      (start_y + ((0 : Nat) : Int)).toNat ≠ Color.White) :
    render_sprite_tile m bg_array palette start_x start_y tile_id flags sprites_array =
      some sprites_array := by
  have hr : List.range 8 = 0 :: [1, 2, 3, 4, 5, 6, 7] := by decide
  have hpix : render_sprite_tile_pixel bg_array palette start_x start_y false true low high 0 0
      sprites_array = some (.ret sprites_array) := by
    simp only [render_sprite_tile_pixel, Bool.false_eq_true, if_false]
    rw [if_neg (by omega), if_neg (by omega), hcolor]
    simp only [true_and]
    rw [if_pos hbg]
  have hrow : render_sprite_tile_row m bg_array palette start_x start_y tile_id flags 0
      sprites_array = some (.ret sprites_array) := by
    simp only [render_sprite_tile_row, hhigh, hlow, hprio, hmirror, hr, for_flow, hpix]
  simp only [render_sprite_tile, hr, for_flow, hrow]
  rfl

/-- The values of the loop body of `render_background`, in terms of each
other. -/
theorem render_background_pixel_fields (bg_code_area : Bool) (scroll_x scroll_y x y : Nat) :
    (render_background_pixel bg_code_area scroll_x scroll_y x y).map_x =
      (if scroll_x % 0x100 + x > 255 then scroll_x % 0x100 + x - 255
        else scroll_x % 0x100 + x) ∧
    (render_background_pixel bg_code_area scroll_x scroll_y x y).map_y =
      (if scroll_y % 0x100 + y > 255 then scroll_y % 0x100 + y - 255
        else scroll_y % 0x100 + y) ∧
    (render_background_pixel bg_code_area scroll_x scroll_y x y).tile_col =
      (render_background_pixel bg_code_area scroll_x scroll_y x y).map_x / 8 ∧
    (render_background_pixel bg_code_area scroll_x scroll_y x y).tile_row =
      (render_background_pixel bg_code_area scroll_x scroll_y x y).map_y / 8 ∧
    (render_background_pixel bg_code_area scroll_x scroll_y x y).loc =
      ((if bg_code_area then 0x9C00 else 0x9800) +
        ((render_background_pixel bg_code_area scroll_x scroll_y x y).tile_row * 32 +
          (render_background_pixel bg_code_area scroll_x scroll_y x y).tile_col)) %
        0x10000 ∧
    (render_background_pixel bg_code_area scroll_x scroll_y x y).tile_x_pixel =
      (((render_background_pixel bg_code_area scroll_x scroll_y x y).map_x % 8 : Nat) -
        (7 : Int)).natAbs ∧
    (render_background_pixel bg_code_area scroll_x scroll_y x y).tile_y_pixel =
      (render_background_pixel bg_code_area scroll_x scroll_y x y).map_y % 8 :=
  ⟨rfl, rfl, rfl, rfl, rfl, rfl, rfl⟩

/-! ## Reads as state transformers -/

theorem sample_no_image_sized : sample_no_image.Sized := sample_sized

theorem sample_no_image_bytes : sample_no_image.Bytes :=
  And.intro (fun _ hx => nomatch hx) sample_bytes.2

/-- A step that loads returns what the load returns. -/
theorem load_member_eq (region : Memory → List Nat) (i : Nat) (m : Memory) :
    load_member region i m = (vec_get (region m) i).map fun b => (b, m) := rfl

theorem get_joypad_state_st_eq (m : Memory) :
    get_joypad_state_st m = (get_joypad_state m).map fun b => (b, m) := by
  unfold get_joypad_state_st get_joypad_state MemoryRegister.get load_member
  cases vec_get m.ZRAM P1 with
  | none => rfl
  | some request =>
    show (if request = 0x10 then some (m.joypad_buttons, m)
      else if request = 0x20 then some (m.joypad_arrows, m) else some (0xE, m)) =
      Option.map (fun b => (b, m))
        (if request = 0x10 then some m.joypad_buttons
          else if request = 0x20 then some m.joypad_arrows else some 0xE)
    by_cases c1 : request = 0x10
    · rw [if_pos c1, if_pos c1]; rfl
    by_cases c2 : request = 0x20
    · rw [if_neg c1, if_neg c1, if_pos c2, if_pos c2]; rfl
    · rw [if_neg c1, if_neg c1, if_neg c2, if_neg c2]; rfl

/-- The state-transformer form of `read` returns the byte `read` returns and
the state it was given: no branch of the switch stores to a member. -/
theorem read_state_eq (m : Memory) (a : Nat) :
    read_state m a = (read m a).map fun b => (b, m) := by
  unfold read_state read
  simp only [get_joypad_state_st_eq, load_member_eq,
    apply_ite (Option.map fun b => (b, m)), Option.map_some']

/-! ## Claims -/

/-- C1: OAM DMA from RAM.  For every well-formed state and every byte `v` with
`0x80 ≤ v ≤ 0xFD`, `write(0xFF46, v)` returns, and afterwards, for every `i` in
`0..159`, `read(0xFE00 + i)` is the byte that `read(v * 0x100 + i)` returned
before the write. -/
theorem oam_dma_from_ram (m : Memory) (v : Nat) (hs : m.Sized) (hb : m.Bytes)
    (h1 : 0x80 ≤ v) (h2 : v ≤ 0xFD) :
    ∃ m', write m 0xFF46 v = some m' ∧
      ∀ i, i < 160 →
        ∃ b, read m (v * 0x100 + i) = some b ∧ read m' (0xFE00 + i) = some b := by
  have hsrc0 : ∀ i, i < 0xA0 → ∃ b, read m (v * 0x100 + i) = some b :=
    fun i hi => read_some m hs _ (by omega) (by omega)
  have hfr : ∀ (o : List Nat) (i : Nat), i < 0xA0 →
      read { m with ZRAM := m.ZRAM.set 0x46 v, OAM := o } (v * 0x100 + i) =
        read m (v * 0x100 + i) := by
    intro o i hi
    apply read_congr _ _ _ (by omega)
    · intro _; rfl
    · intro _ _; rfl
    · intro _ _; rfl
    · intro _ _; rfl
    · intro h _; omega
    · intro h; omega
    · intro h; omega
  obtain ⟨o', hw, -, hget⟩ :=
    write_dma_spec m v hs (by omega) (fun i => (read m (v * 0x100 + i)).getD 0)
      (fun i hi => by
        obtain ⟨b, hb'⟩ := hsrc0 i hi
        show (read m (v * 0x100 + i)).getD 0 < 0x100
        rw [hb', Option.getD_some]
        exact read_byte m hb _ _ hb')
      (fun o _ i hi => by
        obtain ⟨b, hb'⟩ := hsrc0 i hi
        rw [hfr o i hi]
        show read m (v * 0x100 + i) = some ((read m (v * 0x100 + i)).getD 0)
        rw [hb', Option.getD_some])
  refine ⟨_, hw, ?_⟩
  intro i hi
  obtain ⟨b, hb'⟩ := hsrc0 i hi
  refine ⟨b, hb', ?_⟩
  rw [read_oam _ _ (by omega) (by omega)]
  have e : 0xFE00 + i - 0xFE00 = i := by omega
  show vec_get o' (0xFE00 + i - 0xFE00) = some b
  rw [e, hget i, if_pos hi]
  show some ((read m (v * 0x100 + i)).getD 0) = some b
  rw [hb', Option.getD_some]

/-- C1, at the sample state with `v = 0xC0`: the block `[0xC000, 0xC0A0)` is
copied into `[0xFE00, 0xFEA0)`. -/
theorem oam_dma_from_ram_witness :
    sample.Sized ∧ sample.Bytes ∧ 0x80 ≤ 0xC0 ∧ 0xC0 ≤ 0xFD ∧
    ∃ m', write sample 0xFF46 0xC0 = some m' ∧
      ∀ i, i < 160 →
        ∃ b, read sample (0xC0 * 0x100 + i) = some b ∧ read m' (0xFE00 + i) = some b :=
  ⟨sample_sized, sample_bytes, by decide, by decide,
    oam_dma_from_ram sample 0xC0 sample_sized sample_bytes (by decide) (by decide)⟩

/-- C2, as stated, fails: in the sample state with no image loaded the
cartridge vector is empty; `write(0xFF46, 0x00)` starts a DMA transfer whose
first load is `CART_ROM[0]` of the empty vector, which faults, so the write
yields no state in which `read(0xFF46)` could return `0x00`. -/
theorem write_read_round_trip_counterexample :
    sample_no_image.Sized ∧ sample_no_image.Bytes ∧ sample_no_image.CART_ROM = [] ∧
    0x8000 ≤ 0xFF46 ∧ 0xFF46 ≤ 0xFFFF ∧ 0x00 < 0x100 ∧
    write sample_no_image 0xFF46 0x00 = none ∧
    ¬ ∃ m', write sample_no_image 0xFF46 0x00 = some m' ∧ read m' 0xFF46 = some 0x00 := by
  have hz : (0x46 : Nat) < sample_no_image.ZRAM.length := by
    show 0x46 < (List.replicate 0x100 0).length
    rw [List.length_replicate]; decide
  have hnone : write sample_no_image 0xFF46 0x00 = none := by
    rw [write_dma_unfold, vec_set_lt _ hz]
    simp only [Option.some_bind]
    apply do_dma_transfer_unreadable _ _ 0x00
    · rw [vec_get_set, if_pos rfl, if_pos hz]
    · rw [read_rom _ _ (by decide)]
      exact vec_get_ge (Nat.zero_le _)
  refine ⟨sample_no_image_sized, sample_no_image_bytes, rfl, by decide, by decide, by decide,
    hnone, ?_⟩
  rintro ⟨m', h, -⟩
  rw [hnone] at h
  cases h

/-- C2, amended: write/read round trip on writable storage.  For every
well-formed state, every byte `d` and every address `a` in `0x8000..0xFFFF`
other than `0xFF00`, `0xFF04` and `0xFF44`, `write(a, d)` returns and a
following `read(a)` returns `d`, provided that, when `a` is the DMA register
`0xFF46` and `d` names a cartridge page (`d < 0x80`), the loaded image covers
the 160 source bytes `[d * 0x100, d * 0x100 + 0xA0)`. -/
theorem write_read_round_trip (m : Memory) (a d : Nat) (hs : m.Sized)
    (h1 : 0x8000 ≤ a) (h2 : a ≤ 0xFFFF) (hd : d < 0x100)
    (hj : a ≠ 0xFF00) (hdiv : a ≠ 0xFF04) (hly : a ≠ 0xFF44)
    (hrom : a = 0xFF46 → d < 0x80 → d * 0x100 + 0xA0 ≤ m.CART_ROM.length) :
    ∃ m', write m a d = some m' ∧ read m' a = some d := by
  have hs' := hs
  obtain ⟨hlv, hle, hlw, hlo, hlz⟩ := hs'
  have ed : d % 0x100 = d := Nat.mod_eq_of_lt hd
  by_cases c2 : a < 0xA000
  · refine ⟨_, by rw [write_vram _ _ _ h1 c2, ed, vec_set_lt _ (by omega)]; rfl, ?_⟩
    rw [read_vram _ _ h1 c2]
    show vec_get (m.VRAM.set _ d) _ = _
    rw [vec_get_set, if_pos rfl, if_pos (by omega)]
  by_cases c3 : a < 0xC000
  · refine ⟨_, by rw [write_eram _ _ _ (by omega) c3, ed, vec_set_lt _ (by omega)]; rfl, ?_⟩
    rw [read_eram _ _ (by omega) c3]
    show vec_get (m.ERAM.set _ d) _ = _
    rw [vec_get_set, if_pos rfl, if_pos (by omega)]
  by_cases c4 : a < 0xFE00
  · have hk : a % 0x2000 < m.WRAM.length := by omega
    refine ⟨_, by rw [write_wram _ _ _ (by omega) c4, ed, vec_set_lt _ hk]; rfl, ?_⟩
    rw [read_wram _ _ (by omega) c4]
    show vec_get (m.WRAM.set _ d) _ = _
    rw [vec_get_set, if_pos rfl, if_pos hk]
  by_cases c5 : a < 0xFF00
  · refine ⟨_, by rw [write_oam _ _ _ (by omega) c5, ed, vec_set_lt _ (by omega)]; rfl, ?_⟩
    rw [read_oam _ _ (by omega) c5]
    show vec_get (m.OAM.set _ d) _ = _
    rw [vec_get_set, if_pos rfl, if_pos (by omega)]
  by_cases c6 : a = 0xFF46
  · subst c6
    obtain ⟨o', hw, -, -⟩ := write_dma_total m d hs hd (hrom rfl)
    refine ⟨_, hw, ?_⟩
    rw [read_zram _ _ (by decide) (by decide)]
    show vec_get (m.ZRAM.set 0x46 d) _ = _
    rw [vec_get_set, if_pos rfl, if_pos (by omega)]
  · refine ⟨_, by
      rw [write_page_plain _ _ _ (by omega) (by omega) c6, if_neg hj, if_neg (by omega), ed,
        vec_set_lt _ (by omega)]; rfl, ?_⟩
    rw [read_zram _ _ (by omega) (by omega)]
    show vec_get (m.ZRAM.set _ d) _ = _
    rw [vec_get_set, if_pos rfl, if_pos (by omega)]

/-- C2, amended, at the sample state: a DMA request for cartridge page `0x3F`,
the last page the 16 KiB image covers, reads back `0x3F`. -/
theorem write_read_round_trip_witness :
    sample.Sized ∧ 0x8000 ≤ 0xFF46 ∧ 0xFF46 ≤ 0xFFFF ∧ 0x3F < 0x100 ∧
    ∃ m', write sample 0xFF46 0x3F = some m' ∧ read m' 0xFF46 = some 0x3F :=
  ⟨sample_sized, by decide, by decide, by decide,
    write_read_round_trip sample 0xFF46 0x3F sample_sized (by decide) (by decide) (by decide)
      (by decide) (by decide) (by decide)
      (fun _ _ => by
        show _ ≤ (List.replicate 0x4000 0xC3).length
        rw [List.length_replicate]; decide)⟩

/-- C3: cartridge ROM is immutable.  For every state, every address `a` in
`0x0000..0x7FFF` and every byte `d`, `write(a, d)` returns the state it was
given, every field unchanged, so every later read returns what it returned
before. -/
theorem rom_write_discarded (m : Memory) (a d : Nat) (h : a ≤ 0x7FFF) :
    write m a d = some m ∧
      ∀ m', write m a d = some m' →
        m'.CART_ROM = m.CART_ROM ∧ m'.VRAM = m.VRAM ∧ m'.ERAM = m.ERAM ∧
        m'.WRAM = m.WRAM ∧ m'.OAM = m.OAM ∧ m'.ZRAM = m.ZRAM ∧
        m'.joypad_buttons = m.joypad_buttons ∧ m'.joypad_arrows = m.joypad_arrows ∧
        ∀ b, read m' b = read m b := by
  have hw : write m a d = some m := write_rom m a d (by omega)
  refine ⟨hw, ?_⟩
  intro m' h'
  rw [hw] at h'
  cases h'
  exact ⟨rfl, rfl, rfl, rfl, rfl, rfl, rfl, rfl, fun _ => rfl⟩

/-- C3, at the sample state: a write of `0x99` to the ROM address `0x0150`. -/
theorem rom_write_discarded_witness :
    0x0150 ≤ 0x7FFF ∧ write sample 0x0150 0x99 = some sample :=
  ⟨by decide, (rom_write_discarded sample 0x0150 0x99 (by decide)).1⟩

/-- C4: working-RAM shadow aliasing.  For every `k < 0x1E00`, the addresses
`0xC000 + k` and `0xE000 + k` denote the same byte: both reads return the same
byte, and after a write of `d` to either one a read of the other returns `d`. -/
theorem wram_shadow_alias (m : Memory) (k d : Nat) (hs : m.Sized) (hk : k < 0x1E00)
    (hd : d < 0x100) :
    (∃ b, read m (0xC000 + k) = some b ∧ read m (0xE000 + k) = some b) ∧
    (∃ m', write m (0xC000 + k) d = some m' ∧ read m' (0xE000 + k) = some d) ∧
    (∃ m', write m (0xE000 + k) d = some m' ∧ read m' (0xC000 + k) = some d) := by
  obtain ⟨-, -, hlw, -, -⟩ := hs
  have ed : d % 0x100 = d := Nat.mod_eq_of_lt hd
  have e1 : (0xC000 + k) % 0x2000 = k := by omega
  have e2 : (0xE000 + k) % 0x2000 = k := by omega
  have r1 : ∀ s : Memory, read s (0xC000 + k) = vec_get s.WRAM k := by
    intro s; rw [read_wram _ _ (by omega) (by omega), e1]
  have r2 : ∀ s : Memory, read s (0xE000 + k) = vec_get s.WRAM k := by
    intro s; rw [read_wram _ _ (by omega) (by omega), e2]
  have w1 : write m (0xC000 + k) d = some { m with WRAM := m.WRAM.set k d } := by
    rw [write_wram _ _ _ (by omega) (by omega), e1, ed, vec_set_lt _ (by omega)]; rfl
  have w2 : write m (0xE000 + k) d = some { m with WRAM := m.WRAM.set k d } := by
    rw [write_wram _ _ _ (by omega) (by omega), e2, ed, vec_set_lt _ (by omega)]; rfl
  have g : vec_get (m.WRAM.set k d) k = some d := by
    rw [vec_get_set, if_pos rfl, if_pos (by omega)]
  refine ⟨?_, ⟨_, w1, ?_⟩, ⟨_, w2, ?_⟩⟩
  · obtain ⟨b, hb⟩ : ∃ b, vec_get m.WRAM k = some b := vec_get_isSome (by omega)
    exact ⟨b, by rw [r1, hb], by rw [r2, hb]⟩
  · rw [r2]; exact g
  · rw [r1]; exact g

/-- C4, at the sample state with `k = 0x1DFF`, the last mirrored offset
(`0xDDFF` and `0xFDFF`). -/
theorem wram_shadow_alias_witness :
    sample.Sized ∧ 0x1DFF < 0x1E00 ∧ 0x5A < 0x100 ∧
    (∃ b, read sample (0xC000 + 0x1DFF) = some b ∧ read sample (0xE000 + 0x1DFF) = some b) ∧
    (∃ m', write sample (0xC000 + 0x1DFF) 0x5A = some m' ∧
      read m' (0xE000 + 0x1DFF) = some 0x5A) ∧
    (∃ m', write sample (0xE000 + 0x1DFF) 0x5A = some m' ∧
      read m' (0xC000 + 0x1DFF) = some 0x5A) :=
  ⟨sample_sized, by decide, by decide,
    wram_shadow_alias sample 0x1DFF 0x5A sample_sized (by decide) (by decide)⟩

/-- C5: the divider register write-clears.  For every well-formed state and
every written value `d`, `write(0xFF04, d)` returns and a following
`read(0xFF04)` returns `0x00`. -/
theorem divider_write_clears (m : Memory) (d : Nat) (hs : m.Sized) :
    ∃ m', write m 0xFF04 d = some m' ∧ read m' 0xFF04 = some 0x00 := by
  obtain ⟨-, -, -, -, hlz⟩ := hs
  refine ⟨{ m with ZRAM := m.ZRAM.set 0x04 0 }, ?_, ?_⟩
  · rw [write_page_plain _ _ _ (by decide) (by decide) (by decide), if_neg (by decide),
      if_pos (Or.inl rfl), vec_set_lt _ (by omega)]
    rfl
  · rw [read_zram _ _ (by decide) (by decide)]
    show vec_get (m.ZRAM.set 0x04 0) _ = _
    rw [vec_get_set, if_pos rfl, if_pos (by omega)]

/-- C5, at the sample state with `d = 0x42`. -/
theorem divider_write_clears_witness :
    sample.Sized ∧
    ∃ m', write sample 0xFF04 0x42 = some m' ∧ read m' 0xFF04 = some 0x00 :=
  ⟨sample_sized, divider_write_clears sample 0x42 sample_sized⟩

/-- C6: the scanline-counter register cannot be set by a write.  For every
well-formed state and every written value `d`, `write(0xFF44, d)` returns and
a following `read(0xFF44)` returns `0x00`, whatever the register held before. -/
theorem scanline_write_resets (m : Memory) (d : Nat) (hs : m.Sized) :
    ∃ m', write m 0xFF44 d = some m' ∧ read m' 0xFF44 = some 0x00 := by
  obtain ⟨-, -, -, -, hlz⟩ := hs
  refine ⟨{ m with ZRAM := m.ZRAM.set 0x44 0 }, ?_, ?_⟩
  · rw [write_page_plain _ _ _ (by decide) (by decide) (by decide), if_neg (by decide),
      if_pos (Or.inr rfl), vec_set_lt _ (by omega)]
    rfl
  · rw [read_zram _ _ (by decide) (by decide)]
    show vec_get (m.ZRAM.set 0x44 0) _ = _
    rw [vec_get_set, if_pos rfl, if_pos (by omega)]

/-- C6, at the sample state with `d = 0x90`. -/
theorem scanline_write_resets_witness :
    sample.Sized ∧
    ∃ m', write sample 0xFF44 0x90 = some m' ∧ read m' 0xFF44 = some 0x00 :=
  ⟨sample_sized, scanline_write_resets sample 0x90 sample_sized⟩

/-- C7: joypad select and read.  For every well-formed state and byte `d`,
`write(0xFF00, d)` stores exactly `d & 0x30` in the joypad register (all bits
other than 4 and 5 are zero) and leaves the latches alone; a following
`read(0xFF00)` returns the button latch when `d & 0x30 = 0x10` and the
direction latch when `d & 0x30 = 0x20`; and the byte read at `0xFF00` is the
same in any two states with the same stored select bits and the same latches. -/
theorem joypad_select_and_read (m : Memory) (d : Nat) (hs : m.Sized) (hd : d < 0x100) :
    ∃ m', write m 0xFF00 d = some m' ∧
      vec_get m'.ZRAM 0x00 = some (d &&& 0x30) ∧
      (d &&& 0x30) &&& 0xCF = 0 ∧
      m'.joypad_buttons = m.joypad_buttons ∧ m'.joypad_arrows = m.joypad_arrows ∧
      (d &&& 0x30 = 0x10 → read m' 0xFF00 = some m.joypad_buttons) ∧
      (d &&& 0x30 = 0x20 → read m' 0xFF00 = some m.joypad_arrows) ∧
      ∀ s : Memory, vec_get s.ZRAM 0x00 = vec_get m'.ZRAM 0x00 →
        s.joypad_buttons = m'.joypad_buttons → s.joypad_arrows = m'.joypad_arrows →
        read s 0xFF00 = read m' 0xFF00 := by
  obtain ⟨-, -, -, -, hlz⟩ := hs
  have ed : d % 0x100 = d := Nat.mod_eq_of_lt hd
  have g : vec_get (m.ZRAM.set 0x00 (d &&& 0x30)) 0x00 = some (d &&& 0x30) := by
    rw [vec_get_set, if_pos rfl, if_pos (by omega)]
  have rj : ∀ s : Memory, read s 0xFF00 =
      (vec_get s.ZRAM 0x00).bind fun request =>
        if request = 0x10 then some s.joypad_buttons
        else if request = 0x20 then some s.joypad_arrows
        else some 0xE := by
    intro s; rw [read_joypad]; rfl
  refine ⟨{ m with ZRAM := m.ZRAM.set 0x00 (d &&& 0x30) }, ?_, g, ?_, rfl, rfl, ?_, ?_, ?_⟩
  · rw [write_page_plain _ _ _ (by decide) (by decide) (by decide), if_pos rfl, ed,
      vec_set_lt _ (by omega)]
    rfl
  · rw [Nat.and_assoc]
    have z : (0x30 : Nat) &&& 0xCF = 0 := by decide
    rw [z, Nat.and_zero]
  · intro h
    rw [rj]
    show (vec_get (m.ZRAM.set 0x00 (d &&& 0x30)) 0x00).bind _ = _
    rw [g, Option.some_bind, if_pos h]
  · intro h
    rw [rj]
    show (vec_get (m.ZRAM.set 0x00 (d &&& 0x30)) 0x00).bind _ = _
    rw [g, Option.some_bind, if_neg (by omega), if_pos h]
  · intro s h1 h2 h3
    rw [rj, rj, h1, h2, h3]

/-- C7, at the sample state with `d = 0xDF`: the stored select pattern is
`0xDF & 0x30 = 0x10`, the button group. -/
theorem joypad_select_and_read_witness :
    sample.Sized ∧ 0xDF < 0x100 ∧
    ∃ m', write sample 0xFF00 0xDF = some m' ∧
      vec_get m'.ZRAM 0x00 = some (0xDF &&& 0x30) ∧
      (0xDF &&& 0x30) &&& 0xCF = 0 ∧
      m'.joypad_buttons = sample.joypad_buttons ∧ m'.joypad_arrows = sample.joypad_arrows ∧
      (0xDF &&& 0x30 = 0x10 → read m' 0xFF00 = some sample.joypad_buttons) ∧
      (0xDF &&& 0x30 = 0x20 → read m' 0xFF00 = some sample.joypad_arrows) ∧
      ∀ s : Memory, vec_get s.ZRAM 0x00 = vec_get m'.ZRAM 0x00 →
        s.joypad_buttons = m'.joypad_buttons → s.joypad_arrows = m'.joypad_arrows →
        read s 0xFF00 = read m' 0xFF00 :=
  ⟨sample_sized, by decide, joypad_select_and_read sample 0xDF sample_sized (by decide)⟩

/-- C8, as stated, fails: at the sample state with no key held, whose stored
select pattern is `0x00`, `read(0xFF00)` returns `0x0E`, in which bit 0 is
clear, so the four input bits are not all set. -/
theorem joypad_idle_counterexample :
    sample_idle.Sized ∧
    vec_get sample_idle.ZRAM 0x00 = some 0x00 ∧
    read sample_idle 0xFF00 = some 0x0E ∧
    ¬ ∃ b, read sample_idle 0xFF00 = some b ∧ b &&& 0x0F = 0x0F := by
  have hz : vec_get sample_idle.ZRAM 0x00 = some 0x00 := sample_idle_select
  have hr : read sample_idle 0xFF00 = some 0x0E := by
    rw [read_joypad]
    simp only [get_joypad_state, MemoryRegister.get, P1, hz, Option.bind_eq_bind,
      Option.some_bind]
    rfl
  refine ⟨sample_idle_sized, hz, hr, ?_⟩
  rintro ⟨b, hb, hbits⟩
  rw [hr] at hb
  cases hb
  revert hbits
  decide

/-- C8, amended: joypad idle value.  For every well-formed state whose stored
joypad select pattern is neither `0x10` nor `0x20`, `read(0xFF00)` returns the
fixed value `0x0E`, independent of both latches; in it bits 1 to 3 are set and
bit 0 is clear. -/
theorem joypad_idle_value (m : Memory) (hs : m.Sized)
    (h1 : vec_get m.ZRAM 0x00 ≠ some 0x10) (h2 : vec_get m.ZRAM 0x00 ≠ some 0x20) :
    read m 0xFF00 = some 0x0E ∧
    (∀ buttons arrows : Nat,
      read { m with joypad_buttons := buttons, joypad_arrows := arrows } 0xFF00 = some 0x0E) ∧
    (0x0E : Nat) &&& 0x0F = 0x0E := by
  obtain ⟨-, -, -, -, hlz⟩ := hs
  obtain ⟨r, hr⟩ : ∃ r, vec_get m.ZRAM 0x00 = some r := vec_get_isSome (by omega)
  have n1 : r ≠ 0x10 := fun e => h1 (by rw [hr, e])
  have n2 : r ≠ 0x20 := fun e => h2 (by rw [hr, e])
  have key : ∀ s : Memory, s.ZRAM = m.ZRAM → read s 0xFF00 = some 0x0E := by
    intro s hz
    rw [read_joypad]
    simp only [get_joypad_state, MemoryRegister.get, P1, hz, hr, Option.bind_eq_bind,
      Option.some_bind]
    rw [if_neg n1, if_neg n2]
  exact ⟨key m rfl, fun _ _ => key _ rfl, by decide⟩

/-- C8, amended, at the sample state with no key held. -/
theorem joypad_idle_value_witness :
    sample_idle.Sized ∧ read sample_idle 0xFF00 = some 0x0E :=
  have hz : vec_get sample_idle.ZRAM 0x00 = some 0x00 := sample_idle_select
  ⟨sample_idle_sized,
    (joypad_idle_value sample_idle sample_idle_sized (by rw [hz]; decide)
      (by rw [hz]; decide)).1⟩

/-- C10: post-boot defaults.  After `reset()` from any well-formed state the
display-control register (`0xFF40`) holds `0x83`, the background palette
(`0xFF47`) holds `0xFC`, both object palettes (`0xFF48`, `0xFF49`) hold
`0xFF`, every other stored byte of video RAM, external RAM, working RAM, the
sprite attribute table and the zero page is `0x00`, and both joypad latches
are `0xF`. -/
theorem reset_post_boot_defaults (m : Memory) (hs : m.Sized) :
    ∃ m', reset m = some m' ∧
      read m' 0xFF40 = some 0x83 ∧ read m' 0xFF47 = some 0xFC ∧
      read m' 0xFF48 = some 0xFF ∧ read m' 0xFF49 = some 0xFF ∧
      m'.VRAM.length = 0x2000 ∧ m'.ERAM.length = 0x2000 ∧ m'.WRAM.length = 0x2000 ∧
      m'.OAM.length = 0x100 ∧ m'.ZRAM.length = 0x100 ∧
      (∀ i, i < 0x2000 → vec_get m'.VRAM i = some 0x00) ∧
      (∀ i, i < 0x2000 → vec_get m'.ERAM i = some 0x00) ∧
      (∀ i, i < 0x2000 → vec_get m'.WRAM i = some 0x00) ∧
      (∀ i, i < 0x100 → vec_get m'.OAM i = some 0x00) ∧
      (∀ i, i < 0x100 → vec_get m'.ZRAM i =
        some (if i = 0x40 then 0x83 else if i = 0x47 then 0xFC
          else if i = 0x48 ∨ i = 0x49 then 0xFF else 0x00)) ∧
      m'.joypad_buttons = 0xF ∧ m'.joypad_arrows = 0xF := by
  have hz : ∀ a, 0xFF00 < a → a < 0x10000 →
      read
        { CART_ROM := m.CART_ROM
          VRAM := List.replicate 0x2000 0
          ERAM := List.replicate 0x2000 0
          WRAM := List.replicate 0x2000 0
          OAM := List.replicate 0x100 0
          ZRAM := reset_defaults.foldl (fun z rv => z.set rv.1 (rv.2 % 0x100))
            (List.replicate 0x100 0)
          joypad_buttons := 0xF
          joypad_arrows := 0xF } a =
      some (if a - 0xFF00 = 0x40 then 0x83 else if a - 0xFF00 = 0x47 then 0xFC
          else if a - 0xFF00 = 0x48 ∨ a - 0xFF00 = 0x49 then 0xFF else 0x00) := by
    intro a h1 h2
    rw [read_zram _ _ h1 h2]
    exact reset_zram_get _ (by omega)
  refine ⟨_, reset_eq m hs, ?_, ?_, ?_, ?_, List.length_replicate _ _,
    List.length_replicate _ _, List.length_replicate _ _, List.length_replicate _ _,
    reset_zram_length, fun i hi => vec_get_replicate _ _ _ hi,
    fun i hi => vec_get_replicate _ _ _ hi, fun i hi => vec_get_replicate _ _ _ hi,
    fun i hi => vec_get_replicate _ _ _ hi, fun i hi => reset_zram_get i hi, rfl, rfl⟩
  · rw [hz _ (by decide) (by decide)]; rfl
  · rw [hz _ (by decide) (by decide)]; rfl
  · rw [hz _ (by decide) (by decide)]; rfl
  · rw [hz _ (by decide) (by decide)]; rfl

/-- C10, at the sample state. -/
theorem reset_post_boot_defaults_witness :
    sample.Sized ∧
    ∃ m', reset sample = some m' ∧
      read m' 0xFF40 = some 0x83 ∧ read m' 0xFF47 = some 0xFC ∧
      read m' 0xFF48 = some 0xFF ∧ read m' 0xFF49 = some 0xFF ∧
      m'.VRAM.length = 0x2000 ∧ m'.ERAM.length = 0x2000 ∧ m'.WRAM.length = 0x2000 ∧
      m'.OAM.length = 0x100 ∧ m'.ZRAM.length = 0x100 ∧
      (∀ i, i < 0x2000 → vec_get m'.VRAM i = some 0x00) ∧
      (∀ i, i < 0x2000 → vec_get m'.ERAM i = some 0x00) ∧
      (∀ i, i < 0x2000 → vec_get m'.WRAM i = some 0x00) ∧
      (∀ i, i < 0x100 → vec_get m'.OAM i = some 0x00) ∧
      (∀ i, i < 0x100 → vec_get m'.ZRAM i =
        some (if i = 0x40 then 0x83 else if i = 0x47 then 0xFC
          else if i = 0x48 ∨ i = 0x49 then 0xFF else 0x00)) ∧
      m'.joypad_buttons = 0xF ∧ m'.joypad_arrows = 0xF :=
  ⟨sample_sized, reset_post_boot_defaults sample sample_sized⟩

/-- C11: address decoding is total above the cartridge.  For every 16-bit
address `a` the load `read(a)` makes is never the `default: return 0` branch.
For `a` in `0x8000..0xFFFF`, `read(a)` and `write(a, d)` touch the same single
region, fixed by the range `a` lies in, at an index strictly inside it
(below `0x2000` for video RAM, external RAM and working RAM, below `0x100` for
the sprite attribute table and the zero page), and `read(a)` returns a byte. -/
theorem address_decoding_total (m : Memory) (a d : Nat) (hs : m.Sized) (h : a ≤ 0xFFFF) :
    read_access a ≠ .fallback ∧ read m a = read_at m (read_access a) ∧
    (0x8000 ≤ a →
      (∃ b, read m a = some b) ∧
      ((a < 0xA000 ∧ ∃ i, i < 0x2000 ∧ i < m.VRAM.length ∧ read_access a = .vram i ∧
          write m a d = (vec_set m.VRAM i (d % 0x100)).map fun v => { m with VRAM := v }) ∨
       (0xA000 ≤ a ∧ a < 0xC000 ∧ ∃ i, i < 0x2000 ∧ i < m.ERAM.length ∧
          read_access a = .eram i ∧
          write m a d = (vec_set m.ERAM i (d % 0x100)).map fun v => { m with ERAM := v }) ∨
       (0xC000 ≤ a ∧ a < 0xFE00 ∧ ∃ i, i < 0x2000 ∧ i < m.WRAM.length ∧
          read_access a = .wram i ∧
          write m a d = (vec_set m.WRAM i (d % 0x100)).map fun v => { m with WRAM := v }) ∨
       (0xFE00 ≤ a ∧ a < 0xFF00 ∧ ∃ i, i < 0x100 ∧ i < m.OAM.length ∧
          read_access a = .oam i ∧
          write m a d = (vec_set m.OAM i (d % 0x100)).map fun v => { m with OAM := v }) ∨
       (0xFF00 ≤ a ∧ ∃ i, i < 0x100 ∧ i < m.ZRAM.length ∧
          (read_access a = .zram i ∨ (a = 0xFF00 ∧ i = P1 ∧ read_access a = .joypad)) ∧
          ∃ value, write m a d =
            (vec_set m.ZRAM i value).bind fun z =>
              if a = 0xFF46 then do_dma_transfer (write_fuel 1) { m with ZRAM := z }
              else some { m with ZRAM := z }))) := by
  have hlt : a < 0x10000 := by omega
  obtain ⟨hlv, hle, hlw, hlo, hlz⟩ := hs
  refine ⟨?_, read_eq_read_at m a hlt, ?_⟩
  · by_cases c1 : a < 0x8000
    · rw [read_access_rom _ c1]; exact fun e => nomatch e
    by_cases c2 : a < 0xA000
    · rw [read_access_vram _ (by omega) c2]; exact fun e => nomatch e
    by_cases c3 : a < 0xC000
    · rw [read_access_eram _ (by omega) c3]; exact fun e => nomatch e
    by_cases c4 : a < 0xFE00
    · rw [read_access_wram _ (by omega) c4]; exact fun e => nomatch e
    by_cases c5 : a < 0xFF00
    · rw [read_access_oam _ (by omega) c5]; exact fun e => nomatch e
    rw [read_access_page _ (by omega) hlt]
    by_cases c6 : a = 0xFF00
    · rw [if_pos c6]; exact fun e => nomatch e
    · rw [if_neg c6]; exact fun e => nomatch e
  · intro h8
    refine ⟨read_some m ⟨hlv, hle, hlw, hlo, hlz⟩ a h8 hlt, ?_⟩
    by_cases c2 : a < 0xA000
    · exact Or.inl ⟨c2, a - 0x8000, by omega, by omega, read_access_vram _ h8 c2,
        write_vram _ _ _ h8 c2⟩
    by_cases c3 : a < 0xC000
    · exact Or.inr (Or.inl ⟨by omega, c3, a - 0xA000, by omega, by omega,
        read_access_eram _ (by omega) c3, write_eram _ _ _ (by omega) c3⟩)
    by_cases c4 : a < 0xFE00
    · exact Or.inr (Or.inr (Or.inl ⟨by omega, c4, a % 0x2000, by omega, by omega,
        read_access_wram _ (by omega) c4, write_wram _ _ _ (by omega) c4⟩))
    by_cases c5 : a < 0xFF00
    · exact Or.inr (Or.inr (Or.inr (Or.inl ⟨by omega, c5, a - 0xFE00, by omega, by omega,
        read_access_oam _ (by omega) c5, write_oam _ _ _ (by omega) c5⟩)))
    refine Or.inr (Or.inr (Or.inr (Or.inr ⟨by omega, a - 0xFF00, by omega, by omega, ?_, ?_⟩)))
    · rw [read_access_page _ (by omega) hlt]
      by_cases c6 : a = 0xFF00
      · rw [if_pos c6]; exact Or.inr ⟨c6, by rw [c6]; rfl, rfl⟩
      · rw [if_neg c6]; exact Or.inl rfl
    · by_cases c7 : a = 0xFF46
      · subst c7
        exact ⟨d % 0x100, by rw [write_dma_unfold]; rfl⟩
      · refine ⟨if a = 0xFF00 then (d % 0x100) &&& 0x30
            else if a = 0xFF04 ∨ a = 0xFF44 then 0 else d % 0x100, ?_⟩
        rw [write_page_plain _ _ _ (by omega) hlt c7]
        simp only [if_neg c7]
        cases vec_set m.ZRAM (a - 0xFF00) _ <;> rfl

/-- C11, at the sample state and the last address of the working-RAM shadow. -/
theorem address_decoding_total_witness :
    sample.Sized ∧ 0xFDFF ≤ 0xFFFF ∧ read_access 0xFDFF ≠ .fallback ∧
    read sample 0xFDFF = read_at sample (read_access 0xFDFF) :=
  have h := address_decoding_total sample 0xFDFF 0x5A sample_sized (by decide)
  ⟨sample_sized, by decide, h.1, h.2.1⟩

/-- C12: reads have no side effects.  For every well-formed state and every
16-bit address `a` inside the loaded image or at `0x8000` and above, `read(a)`
returns a byte and leaves every region, the cartridge image and both latches
as they were, so a second `read(a)` returns the same byte and again leaves the
state as it was; the joypad register `0xFF00` and the scanline register
`0xFF44` are among these addresses. -/
theorem read_has_no_side_effect (m : Memory) (a : Nat) (hs : m.Sized) (h : a ≤ 0xFFFF)
    (hmap : a < m.CART_ROM.length ∨ 0x8000 ≤ a) :
    ∃ b, read_state m a = some (b, m) ∧
      (∀ b' m', read_state m a = some (b', m') →
        m'.CART_ROM = m.CART_ROM ∧ m'.VRAM = m.VRAM ∧ m'.ERAM = m.ERAM ∧
        m'.WRAM = m.WRAM ∧ m'.OAM = m.OAM ∧ m'.ZRAM = m.ZRAM ∧
        m'.joypad_buttons = m.joypad_buttons ∧ m'.joypad_arrows = m.joypad_arrows ∧
        read_state m' a = some (b', m')) ∧
      ((read_state m a).bind fun r1 =>
        (read_state r1.2 a).map fun r2 => (r1.1, r2.1, r2.2)) = some (b, b, m) := by
  have hr : ∃ b, read m a = some b := by
    by_cases c : 0x8000 ≤ a
    · exact read_some m hs a c (by omega)
    · have hl : a < m.CART_ROM.length := by omega
      rw [read_rom _ _ (by omega)]
      exact vec_get_isSome hl
  obtain ⟨b, hb⟩ := hr
  have hst : read_state m a = some (b, m) := by
    rw [read_state_eq, hb]; rfl
  refine ⟨b, hst, ?_, ?_⟩
  · intro b' m' h'
    rw [hst] at h'
    cases h'
    exact ⟨rfl, rfl, rfl, rfl, rfl, rfl, rfl, rfl, hst⟩
  · rw [hst]
    show (read_state m a).map _ = _
    rw [hst]
    rfl

/-- C12, at the sample state and the joypad register `0xFF00`. -/
theorem read_has_no_side_effect_witness :
    sample.Sized ∧ 0xFF00 ≤ 0xFFFF ∧
    ∃ b, read_state sample 0xFF00 = some (b, sample) ∧
      ((read_state sample 0xFF00).bind fun r1 =>
        (read_state r1.2 0xFF00).map fun r2 => (r1.1, r2.1, r2.2)) = some (b, b, sample) :=
  have h := read_has_no_side_effect sample 0xFF00 sample_sized (by decide)
    (Or.inr (by decide))
  ⟨sample_sized, by decide, h.elim fun b hb => ⟨b, hb.1, hb.2.2⟩⟩

/-- C13: a non-DMA write touches one byte only.  For every well-formed state,
every byte `d` and every 16-bit address `a` other than `0xFF46`, `write(a, d)`
returns and leaves `read(b)` unchanged for every 16-bit address `b` such that
`b ≠ a` and `{a, b}` is not a working-RAM mirror pair
`{0xC000 + k, 0xE000 + k}` with `k < 0x1E00`; both joypad latches and the
cartridge image are unchanged as well. -/
theorem write_touches_one_byte (m : Memory) (a d : Nat) (hs : m.Sized) (ha : a ≤ 0xFFFF)
    (hdma : a ≠ 0xFF46) :
    ∃ m', write m a d = some m' ∧
      m'.joypad_buttons = m.joypad_buttons ∧ m'.joypad_arrows = m.joypad_arrows ∧
      m'.CART_ROM = m.CART_ROM ∧
      ∀ b, b ≤ 0xFFFF → b ≠ a →
        (¬ ∃ k, k < 0x1E00 ∧
          ((a = 0xC000 + k ∧ b = 0xE000 + k) ∨ (a = 0xE000 + k ∧ b = 0xC000 + k))) →
        read m' b = read m b := by
  obtain ⟨hlv, hle, hlw, hlo, hlz⟩ := hs
  by_cases c1 : a < 0x8000
  · exact ⟨m, write_rom _ _ _ c1, rfl, rfl, rfl, fun _ _ _ _ => rfl⟩
  by_cases c2 : a < 0xA000
  · refine ⟨{ m with VRAM := m.VRAM.set (a - 0x8000) (d % 0x100) },
      by rw [write_vram _ _ _ (by omega) c2, vec_set_lt _ (by omega)]; rfl, rfl, rfl, rfl, ?_⟩
    intro b hb hne _
    exact (read_after_store m b (by omega) (a - 0x8000) (d % 0x100)).1 (by omega)
  by_cases c3 : a < 0xC000
  · refine ⟨{ m with ERAM := m.ERAM.set (a - 0xA000) (d % 0x100) },
      by rw [write_eram _ _ _ (by omega) c3, vec_set_lt _ (by omega)]; rfl, rfl, rfl, rfl, ?_⟩
    intro b hb hne _
    exact (read_after_store m b (by omega) (a - 0xA000) (d % 0x100)).2.1 (by omega)
  by_cases c4 : a < 0xFE00
  · have hk : a % 0x2000 < m.WRAM.length := by omega
    refine ⟨{ m with WRAM := m.WRAM.set (a % 0x2000) (d % 0x100) },
      by rw [write_wram _ _ _ (by omega) c4, vec_set_lt _ hk]; rfl, rfl, rfl, rfl, ?_⟩
    intro b hb hne hpair
    apply (read_after_store m b (by omega) (a % 0x2000) (d % 0x100)).2.2.1
    by_cases cb : b < 0xC000 ∨ 0xFE00 ≤ b
    · rcases cb with cb | cb
      · exact Or.inl cb
      · exact Or.inr (Or.inl cb)
    · refine Or.inr (Or.inr ?_)
      intro e
      by_cases lt : a < b
      · exact hpair ⟨a - 0xC000, by omega, Or.inl ⟨by omega, by omega⟩⟩
      · exact hpair ⟨b - 0xC000, by omega, Or.inr ⟨by omega, by omega⟩⟩
  by_cases c5 : a < 0xFF00
  · refine ⟨{ m with OAM := m.OAM.set (a - 0xFE00) (d % 0x100) },
      by rw [write_oam _ _ _ (by omega) c5, vec_set_lt _ (by omega)]; rfl, rfl, rfl, rfl, ?_⟩
    intro b hb hne _
    exact (read_after_store m b (by omega) (a - 0xFE00) (d % 0x100)).2.2.2.1 (by omega)
  · refine ⟨{ m with ZRAM := (m.ZRAM.set (a - 0xFF00)
        (if a = 0xFF00 then (d % 0x100) &&& 0x30
         else if a = 0xFF04 ∨ a = 0xFF44 then 0 else d % 0x100)) }, by
      rw [write_page_plain _ _ _ (by omega) (by omega) hdma, vec_set_lt _ (by omega)]; rfl,
      rfl, rfl, rfl, ?_⟩
    intro b hb hne _
    exact (read_after_store m b (by omega) (a - 0xFF00) _).2.2.2.2 (by omega)

/-- C13, at the sample state: a write to the joypad register. -/
theorem write_touches_one_byte_witness :
    sample.Sized ∧ 0xFF00 ≤ 0xFFFF ∧ 0xFF00 ≠ 0xFF46 ∧
    ∃ m', write sample 0xFF00 0x10 = some m' ∧
      m'.joypad_buttons = sample.joypad_buttons ∧ m'.joypad_arrows = sample.joypad_arrows ∧
      m'.CART_ROM = sample.CART_ROM ∧
      ∀ b, b ≤ 0xFFFF → b ≠ 0xFF00 →
        (¬ ∃ k, k < 0x1E00 ∧
          ((0xFF00 = 0xC000 + k ∧ b = 0xE000 + k) ∨ (0xFF00 = 0xE000 + k ∧ b = 0xC000 + k))) →
        read m' b = read sample b :=
  ⟨sample_sized, by decide, by decide,
    write_touches_one_byte sample 0xFF00 0x10 sample_sized (by decide) (by decide)⟩

/-- C14: DMA footprint.  For every well-formed state and byte `v` whose 160
source bytes can be read, `write(0xFF46, v)` returns and changes only the DMA
register byte (zero-page offset `0x46`, which becomes `v`) and the first 160
bytes of the sprite attribute table: sprite-table bytes `0xA0..0xFF`, every
other zero-page byte, video RAM, external RAM, working RAM, the cartridge image
and the joypad latches are unchanged. -/
theorem dma_footprint (m : Memory) (v : Nat) (hs : m.Sized) (hv : v < 0x100)
    (hread : ∀ i, i < 0xA0 → ∃ b, read m (v * 0x100 + i) = some b) :
    ∃ m', write m 0xFF46 v = some m' ∧
      vec_get m'.ZRAM 0x46 = some v ∧
      (∀ j, j ≠ 0x46 → vec_get m'.ZRAM j = vec_get m.ZRAM j) ∧
      m'.OAM.length = 0x100 ∧
      (∀ j, 0xA0 ≤ j → vec_get m'.OAM j = vec_get m.OAM j) ∧
      m'.VRAM = m.VRAM ∧ m'.ERAM = m.ERAM ∧ m'.WRAM = m.WRAM ∧
      m'.CART_ROM = m.CART_ROM ∧
      m'.joypad_buttons = m.joypad_buttons ∧ m'.joypad_arrows = m.joypad_arrows := by
  have hrom : v < 0x80 → v * 0x100 + 0xA0 ≤ m.CART_ROM.length := by
    intro c
    obtain ⟨b, hb⟩ := hread 0x9F (by decide)
    rw [read_rom _ _ (by omega)] at hb
    have := vec_get_some_lt hb
    omega
  have hlz : m.ZRAM.length = 0x100 := hs.2.2.2.2
  obtain ⟨o', hw, hlo, hfar⟩ := write_dma_total m v hs hv hrom
  refine ⟨_, hw, ?_, ?_, hlo, hfar, rfl, rfl, rfl, rfl, rfl, rfl⟩
  · show vec_get (m.ZRAM.set 0x46 v) 0x46 = some v
    rw [vec_get_set, if_pos rfl, if_pos (by omega)]
  · intro j hj
    show vec_get (m.ZRAM.set 0x46 v) j = _
    exact vec_get_set_ne _ _ _ _ (fun e => hj e.symm)

/-- C14, at the sample state with `v = 0xFE`, the sprite table copied onto
itself. -/
theorem dma_footprint_witness :
    sample.Sized ∧ 0xFE < 0x100 ∧
    (∀ i, i < 0xA0 → ∃ b, read sample (0xFE * 0x100 + i) = some b) ∧
    ∃ m', write sample 0xFF46 0xFE = some m' ∧
      vec_get m'.ZRAM 0x46 = some 0xFE ∧
      (∀ j, j ≠ 0x46 → vec_get m'.ZRAM j = vec_get sample.ZRAM j) ∧
      m'.OAM.length = 0x100 ∧
      (∀ j, 0xA0 ≤ j → vec_get m'.OAM j = vec_get sample.OAM j) ∧
      m'.VRAM = sample.VRAM ∧ m'.ERAM = sample.ERAM ∧ m'.WRAM = sample.WRAM ∧
      m'.CART_ROM = sample.CART_ROM ∧
      m'.joypad_buttons = sample.joypad_buttons ∧
      m'.joypad_arrows = sample.joypad_arrows :=
  have hr : ∀ i, i < 0xA0 → ∃ b, read sample (0xFE * 0x100 + i) = some b :=
    fun i hi => read_some sample sample_sized _ (by omega) (by omega)
  ⟨sample_sized, by decide, hr, dma_footprint sample 0xFE sample_sized (by decide) hr⟩

/-- C15, checked on the code: at `scroll_x = 255` and `x = 1` the sum is 256
and the loop body of `render_background` uses map column `1`, where
`(255 + 1) mod 256` is `0`; whenever the sum exceeds 255 the coordinate used is
one more than the sum modulo 256, and map coordinate `0` is never reached by
wrapping. -/
theorem background_scroll_wrap_off_by_one :
    (render_background_pixel false 255 0 1 0).map_x = 1 ∧ (255 + 1) % 256 = 0 ∧
    (∀ s p, s ≤ 255 → 255 < s + p → p < 160 →
      (render_background_pixel false s 0 p 0).map_x = (s + p) % 256 + 1 ∧
      (render_background_pixel false 0 s 0 p).map_y = (s + p) % 256 + 1) ∧
    (∀ s p, s ≤ 255 → s + p ≤ 255 →
      (render_background_pixel false s 0 p 0).map_x = (s + p) % 256 ∧
      (render_background_pixel false 0 s 0 p).map_y = (s + p) % 256) := by
  refine ⟨by decide, by decide, ?_, ?_⟩
  · intro s p hs hsp hp
    have e : s % 0x100 = s := Nat.mod_eq_of_lt (by omega)
    simp only [render_background_pixel, e]
    rw [if_pos (by omega)]
    omega
  · intro s p hs hsp
    have e : s % 0x100 = s := Nat.mod_eq_of_lt (by omega)
    simp only [render_background_pixel, e]
    rw [if_neg (by omega)]
    omega

/-- C16: tile-data addressing.  For every tile id `t` in `0..255`: with LCDC
bit 4 set the tile's base address is `0x8000 + 16 * t`, inside
`0x8000..0x8FF0`; with bit 4 clear it is `0x9000 + 16 * s`, with `s` the tile
id as a signed byte, inside `0x8800..0x97F0` with no wrap-around; for
`t` in `128..255` both modes give the same address; and for every tile row
`0..7` the two bytes read lie inside the tile's 16-byte block. -/
theorem tile_data_addressing (t : Nat) (ht : t ≤ 255) :
    bg_tile_offset true t = 0x8000 + 16 * t ∧
    0x8000 ≤ bg_tile_offset true t ∧ bg_tile_offset true t ≤ 0x8FF0 ∧
    -128 ≤ to_signed_byte t ∧ to_signed_byte t ≤ 127 ∧
    (to_signed_byte t - (t : Int)) % 256 = 0 ∧
    ((bg_tile_offset false t : Nat) : Int) = 0x9000 + 16 * to_signed_byte t ∧
    0x8800 ≤ bg_tile_offset false t ∧ bg_tile_offset false t ≤ 0x97F0 ∧
    (128 ≤ t → bg_tile_offset false t = bg_tile_offset true t) ∧
    ∀ (sel : Bool) (row : Nat), row ≤ 7 →
      bg_tile_offset sel t ≤ (bg_tile_row_addresses (bg_tile_offset sel t) row).1 ∧
      (bg_tile_row_addresses (bg_tile_offset sel t) row).1 < bg_tile_offset sel t + 16 ∧
      bg_tile_offset sel t ≤ (bg_tile_row_addresses (bg_tile_offset sel t) row).2 ∧
      (bg_tile_row_addresses (bg_tile_offset sel t) row).2 < bg_tile_offset sel t + 16 := by
  have ht' : t < 0x100 := by omega
  have hu := bg_tile_offset_unsigned t ht'
  have hsg := bg_tile_offset_signed t ht'
  have hs := to_signed_byte_eq t ht'
  have hrange : -128 ≤ to_signed_byte t ∧ to_signed_byte t ≤ 127 ∧
      (to_signed_byte t - (t : Int)) % 256 = 0 := by
    by_cases c : t < 0x80
    · rw [if_pos c] at hs; rw [hs]; omega
    · rw [if_neg c] at hs; rw [hs]; omega
  refine ⟨hu, by omega, by omega, hrange.1, hrange.2.1, hrange.2.2, hsg, by omega, by omega,
    ?_, ?_⟩
  · intro h128
    rw [if_neg (by omega)] at hs
    omega
  · intro sel row hrow
    simp only [bg_tile_row_addresses]
    omega

/-- C16, at tile id `0x80`, where the signed and the unsigned mode meet at
`0x8800`. -/
theorem tile_data_addressing_witness :
    0x80 ≤ 255 ∧ bg_tile_offset true 0x80 = 0x8000 + 16 * 0x80 ∧
    bg_tile_offset false 0x80 = bg_tile_offset true 0x80 :=
  have h := tile_data_addressing 0x80 (by decide)
  ⟨by decide, h.1, h.2.2.2.2.2.2.2.2.2.1 (by decide)⟩

/-- C17: palette decoding.  For every palette byte, every pair of tile-line
bytes and every bit position, with `c = 2 * (bit of the second byte) + (bit of
the first byte)`, `get_pixel_color` returns the entry of the grey table with
index `(palette >> (2 * c)) & 3`, except that a sprite pixel with `c = 0` is
transparent; the result is never the magenta error colour. -/
theorem palette_decoding (palette top bottom bit : Nat) (is_sprite : Bool)
    (hp : palette ≤ 255) (ht : top ≤ 255) (hb : bottom ≤ 255) :
    ∃ color, get_pixel_color palette top bottom bit is_sprite = some color ∧
      color ≠ error_color ∧
      ((is_sprite = true ∧
          2 * (is_bit_set bottom bit).toNat + (is_bit_set top bit).toNat = 0) →
        color = Color.Transparent) ∧
      (¬ (is_sprite = true ∧
          2 * (is_bit_set bottom bit).toNat + (is_bit_set top bit).toNat = 0) →
        shades_of_gray[(palette >>> (2 * (2 * (is_bit_set bottom bit).toNat +
          (is_bit_set top bit).toNat))) &&& 3]? = some color) := by
  rw [get_pixel_color_eq palette top bottom bit is_sprite (by omega) (by omega) (by omega)]
  by_cases c : is_sprite = true ∧
      2 * (is_bit_set bottom bit).toNat + (is_bit_set top bit).toNat = 0
  · rw [if_pos c]
    exact ⟨Color.Transparent, rfl, by decide, fun _ => rfl, fun h => absurd c h⟩
  · rw [if_neg c]
    obtain ⟨col, h1, h2, -⟩ := shade_lookup _ (shade_index_lt palette
      (2 * (2 * (is_bit_set bottom bit).toNat + (is_bit_set top bit).toNat)))
    exact ⟨col, h1, h2, fun h => absurd h c, fun _ => h1⟩

/-- C17, at the palette `0xE4` and the tile-line bytes `0x11`, `0x11`, bit 4:
colour code 3, black. -/
theorem palette_decoding_witness :
    0xE4 ≤ 255 ∧ 0x11 ≤ 255 ∧
    ∃ color, get_pixel_color 0xE4 0x11 0x11 4 true = some color ∧ color ≠ error_color :=
  have h := palette_decoding 0xE4 0x11 0x11 4 true (by decide) (by decide) (by decide)
  ⟨by decide, by decide, h.elim fun color hc => ⟨color, hc.1, hc.2.1⟩⟩

/-- C18, checked on the code: with flag bit 7 set, tile bytes `0x11`, palette
`0xE4` and the tile at the screen origin, the first pixel the loop visits is
`(7, 0)`, where the sample background is not white; `render_sprite_tile`
returns there and leaves the whole sprite image as it was.  Pixel `(3, 0)`, whose
background is white and whose sprite colour is black, stays transparent. -/
theorem sprite_priority_returns_early :
    is_bit_set 0x80 BIT_7 = true ∧
    getPixel sample_bg 7 0 ≠ Color.White ∧ getPixel sample_bg 3 0 = Color.White ∧
    get_pixel_color 0xE4 0x11 0x11 4 true = some (Color.rgb 0 0 0) ∧
    render_sprite_tile sample sample_bg 0xE4 0 0 0x00 0x80 sample_sprites =
      some sample_sprites ∧
    getPixel sample_sprites 3 0 = Color.Transparent ∧
    Color.Transparent ≠ Color.rgb 0 0 0 := by
  have hv : ∀ a, 0x8000 ≤ a → a < 0xA000 → read sample a = some 0x11 := by
    intro a h1 h2
    rw [read_vram _ _ h1 h2]
    exact vec_get_replicate 0x2000 0x11 _ (by omega)
  refine ⟨by decide, by decide, by decide, by decide, ?_, rfl, by decide⟩
  exact render_sprite_tile_returns_early sample sample_bg 0xE4 0 0 0x00 0x80 sample_sprites
    0x11 0x11 (Color.rgb 0 0 0) (by decide) (by decide)
    (hv _ (by decide) (by decide)) (hv _ (by decide) (by decide))
    (by decide) (by decide) (by decide) (by decide)

/-- C19, checked on the code: no label of the RAM-size switch ends in `break`,
so for every code, and whatever the two locals held, control runs through to
`default` and the switch yields size 0 and 0 banks; for code 1 that is not the
2 kB and 1 bank of the table. -/
theorem ram_size_switch_falls_through :
    (∀ code size banks, ram_size_switch code size banks = (0, 0)) ∧
    ram_size_switch 1 0 0 ≠ (2, 1) ∧ ram_size_switch 2 0 0 ≠ (8, 1) ∧
    ram_size_switch 3 0 0 ≠ (32, 4) ∧ ram_size_switch 4 0 0 ≠ (128, 16) := by
  refine ⟨?_, by decide, by decide, by decide, by decide⟩
  intro code size banks
  unfold ram_size_switch ram_size_entry
  by_cases c1 : code = 1
  · rw [if_pos c1]; rfl
  by_cases c2 : code = 2
  · rw [if_neg c1, if_pos c2]; rfl
  by_cases c3 : code = 3
  · rw [if_neg c1, if_neg c2, if_pos c3]; rfl
  by_cases c4 : code = 4
  · rw [if_neg c1, if_neg c2, if_neg c3, if_pos c4]; rfl
  · rw [if_neg c1, if_neg c2, if_neg c3, if_neg c4]; rfl

/-- C20, as stated, fails: at the sample state the DMA register holds `0x00`
before the write, so `read(0xFF46)` returned `0x00`; after `write(0xFF46, 0xFF)`
the sprite-table byte `0xFE46` holds `0xFF`. -/
theorem dma_from_zero_page_counterexample :
    sample.Sized ∧ sample.Bytes ∧ 0x46 < 160 ∧
    read sample (0xFF00 + 0x46) = some 0x00 ∧
    (∃ m', write sample 0xFF46 0xFF = some m' ∧ read m' (0xFE00 + 0x46) = some 0xFF) ∧
    ¬ ∃ m', write sample 0xFF46 0xFF = some m' ∧
      ∀ i, i < 160 → read m' (0xFE00 + i) = read sample (0xFF00 + i) := by
  obtain ⟨m', hw, hcopy⟩ := write_dma_zero_page sample sample_sized sample_bytes
  have hbefore : read sample (0xFF00 + 0x46) = some 0x00 := by
    rw [read_zram _ _ (by decide) (by decide)]
    exact vec_get_replicate 0x100 0 _ (by decide)
  have hafter : read m' (0xFE00 + 0x46) = some 0xFF := by
    rw [hcopy 0x46 (by decide), if_pos rfl]
  refine ⟨sample_sized, sample_bytes, by decide, hbefore, ⟨m', hw, hafter⟩, ?_⟩
  rintro ⟨m'', hw', hall⟩
  rw [hw] at hw'
  cases hw'
  have h := hall 0x46 (by decide)
  rw [hafter, hbefore] at h
  exact absurd h (by decide)

/-- C20, amended: DMA from the zero page.  For every well-formed state,
`write(0xFF46, 0xFF)` returns, and afterwards, for every `i` in `0..159` other
than `0x46`, `read(0xFE00 + i)` equals the value that `read(0xFF00 + i)`
returned before the write; `read(0xFE46)` is `0xFF`, the value just written to
the DMA register, because the register is stored before the block is copied. -/
theorem dma_from_zero_page (m : Memory) (hs : m.Sized) (hb : m.Bytes) :
    ∃ m', write m 0xFF46 0xFF = some m' ∧
      (∀ i, i < 160 → i ≠ 0x46 → read m' (0xFE00 + i) = read m (0xFF00 + i)) ∧
      read m' (0xFE00 + 0x46) = some 0xFF := by
  obtain ⟨m', hw, hcopy⟩ := write_dma_zero_page m hs hb
  refine ⟨m', hw, ?_, ?_⟩
  · intro i hi hne
    rw [hcopy i hi, if_neg hne]
  · rw [hcopy 0x46 (by decide), if_pos rfl]

/-- C20, amended, at the sample state. -/
theorem dma_from_zero_page_witness :
    sample.Sized ∧ sample.Bytes ∧
    ∃ m', write sample 0xFF46 0xFF = some m' ∧
      (∀ i, i < 160 → i ≠ 0x46 → read m' (0xFE00 + i) = read sample (0xFF00 + i)) ∧
      read m' (0xFE00 + 0x46) = some 0xFF :=
  ⟨sample_sized, sample_bytes, dma_from_zero_page sample sample_sized sample_bytes⟩

/-- C21: tile-map lookups stay inside the selected map.  In the pixel loop of
`render_background`, for every scroll pair in `0..255` and every screen pixel
`(x, y)` with `x < 160` and `y < 144`, the adjusted map coordinates lie in
`0..255`, the tile column and row lie in `0..31`, the in-tile pixel
coordinates passed on lie in `0..7`, the tile-map address read lies in
`0x9800..0x9BFF` when LCDC bit 3 is clear and in `0x9C00..0x9FFF` when it is
set, and the read of that address returns a byte of video RAM. -/
theorem tile_map_lookup_in_map (m : Memory) (bg_code_area : Bool)
    (scroll_x scroll_y x y : Nat) (hs : m.Sized)
    (hsx : scroll_x ≤ 255) (hsy : scroll_y ≤ 255) (hx : x < 160) (hy : y < 144) :
    (render_background_pixel bg_code_area scroll_x scroll_y x y).map_x ≤ 255 ∧
    (render_background_pixel bg_code_area scroll_x scroll_y x y).map_y ≤ 255 ∧
    (render_background_pixel bg_code_area scroll_x scroll_y x y).tile_col ≤ 31 ∧
    (render_background_pixel bg_code_area scroll_x scroll_y x y).tile_row ≤ 31 ∧
    (render_background_pixel bg_code_area scroll_x scroll_y x y).tile_x_pixel ≤ 7 ∧
    (render_background_pixel bg_code_area scroll_x scroll_y x y).tile_y_pixel ≤ 7 ∧
    (bg_code_area = false →
      0x9800 ≤ (render_background_pixel bg_code_area scroll_x scroll_y x y).loc ∧
      (render_background_pixel bg_code_area scroll_x scroll_y x y).loc ≤ 0x9BFF) ∧
    (bg_code_area = true →
      0x9C00 ≤ (render_background_pixel bg_code_area scroll_x scroll_y x y).loc ∧
      (render_background_pixel bg_code_area scroll_x scroll_y x y).loc ≤ 0x9FFF) ∧
    (render_background_pixel bg_code_area scroll_x scroll_y x y).loc =
      (if bg_code_area then 0x9C00 else 0x9800) +
        ((render_background_pixel bg_code_area scroll_x scroll_y x y).tile_row * 32 +
          (render_background_pixel bg_code_area scroll_x scroll_y x y).tile_col) ∧
    ∃ tile_id,
      read m (render_background_pixel bg_code_area scroll_x scroll_y x y).loc =
        some tile_id := by
  obtain ⟨h1, h2, h3, h4, h5, h6, h7⟩ :=
    render_background_pixel_fields bg_code_area scroll_x scroll_y x y
  have ex : scroll_x % 0x100 = scroll_x := Nat.mod_eq_of_lt (by omega)
  have ey : scroll_y % 0x100 = scroll_y := Nat.mod_eq_of_lt (by omega)
  rw [ex] at h1
  rw [ey] at h2
  generalize render_background_pixel bg_code_area scroll_x scroll_y x y = P at h1 h2 h3 h4 h5 h6 h7
  have hmx : P.map_x ≤ 255 := by
    rw [h1]
    by_cases c : scroll_x + x > 255
    · rw [if_pos c]; omega
    · rw [if_neg c]; omega
  have hmy : P.map_y ≤ 255 := by
    rw [h2]
    by_cases c : scroll_y + y > 255
    · rw [if_pos c]; omega
    · rw [if_neg c]; omega
  have hcol : P.tile_col ≤ 31 := by omega
  have hrow : P.tile_row ≤ 31 := by omega
  have hloc : P.loc = (if bg_code_area = true then 0x9C00 else 0x9800) +
      (P.tile_row * 32 + P.tile_col) := by
    rw [h5]
    apply Nat.mod_eq_of_lt
    cases bg_code_area
    · rw [if_neg (by decide)]; omega
    · rw [if_pos rfl]; omega
  refine ⟨hmx, hmy, hcol, hrow, by omega, by omega, ?_, ?_, hloc, ?_⟩
  · intro hb
    rw [hloc, if_neg (by rw [hb]; decide)]
    omega
  · intro hb
    rw [hloc, if_pos hb]
    omega
  · apply read_some m hs
    · rw [hloc]
      cases bg_code_area
      · rw [if_neg (by decide)]; omega
      · rw [if_pos rfl]; omega
    · rw [hloc]
      cases bg_code_area
      · rw [if_neg (by decide)]; omega
      · rw [if_pos rfl]; omega

/-- C21, at the sample state with both scroll registers at 255 and the last
screen pixel `(159, 143)`, second tile map. -/
theorem tile_map_lookup_in_map_witness :
    sample.Sized ∧ 255 ≤ 255 ∧ 159 < 160 ∧ 143 < 144 ∧
    (render_background_pixel true 255 255 159 143).map_x ≤ 255 ∧
    (render_background_pixel true 255 255 159 143).map_y ≤ 255 ∧
    (render_background_pixel true 255 255 159 143).tile_col ≤ 31 ∧
    (render_background_pixel true 255 255 159 143).tile_row ≤ 31 ∧
    ∃ tile_id, read sample (render_background_pixel true 255 255 159 143).loc = some tile_id :=
  have h := tile_map_lookup_in_map sample true 255 255 159 143 sample_sized
    (by decide) (by decide) (by decide) (by decide)
  ⟨sample_sized, by decide, by decide, by decide, h.1, h.2.1, h.2.2.1, h.2.2.2.1,
    h.2.2.2.2.2.2.2.2.2⟩

/-- C22: interrupt table constants.  The five request masks, in the order
vertical blanking, display controller, timer overflow, serial done, joypad,
are the single bits 0, 1, 2, 3, 4; the service address of the source with bit
`k` is `0x0040 + 8 * k` (`0x40`, `0x48`, `0x50`, `0x58`, `0x60`); the masks are
pairwise distinct, the vectors are pairwise distinct, and both increase along
the table. -/
theorem interrupt_table_constants :
    interrupt_table.length = 5 ∧
    (∀ k, k < 5 → interrupt_table[k]? = some (2 ^ k, 0x0040 + 8 * k)) ∧
    interrupt_table.map Prod.fst =
      [INTERRUPT_V_BLANKING, INTERRUPT_LCDC, INTERRUPT_TIMER_OVERFLOW,
        INTERRUPT_SERIAL_IO_DONE, INTERRUPT_P10_P13_LOW] ∧
    interrupt_table.map Prod.snd = [0x40, 0x48, 0x50, 0x58, 0x60] ∧
    (interrupt_table.map Prod.fst).Nodup ∧
    (interrupt_table.map Prod.snd).Nodup ∧
    (interrupt_table.map Prod.fst).Pairwise (· < ·) ∧
    (interrupt_table.map Prod.snd).Pairwise (· < ·) := by
  refine ⟨rfl, ?_, rfl, rfl, by decide, by decide, by decide, by decide⟩
  intro k hk
  have hc : k = 0 ∨ k = 1 ∨ k = 2 ∨ k = 3 ∨ k = 4 := by omega
  rcases hc with rfl | rfl | rfl | rfl | rfl <;> rfl

end Gameboy
